import Mathlib

/-!
# js-speedytree: a region quadtree over points

Shallow embedding of `src/quadtree.js`, `src/Superset.js` and `src/geometry/*.js`.

* JavaScript numbers are embedded as exact rationals (no rounding, no NaN, no infinities);
  the options `maxDepth` and `maxPointsPerNode` are integers.
* JavaScript objects are mutable and shared by reference, so the tree lives in a heap of
  `QuadTree` objects addressed by `Ref`; every method takes the heap and the address of `this`
  and returns the heap it leaves behind together with its completion.
* A call either returns a value or throws; the only exception the code can raise is the
  `TypeError` of reading a property of `undefined`.
* Recursive methods carry a fuel argument that bounds the depth of nested calls; `none` means
  the fuel ran out (or an address was not allocated, which no method ever produces).
* Of `Superset` the embedding has the constructor, the inherited `Set` operations the tree
  uses, `every` and `array`; its other combinators are not called by the tree.
-/

namespace SpeedyTree

/-! ## Completions -/

/-- Outcome of a JavaScript call: a returned value, or a thrown `TypeError`. -/
inductive Completion (α : Type) where
  | normal (value : α)
  | typeError
  deriving DecidableEq

/-! ## Geometry -/

/-- Modelled from the spec: the `Point` class of `src/geometry/point.js`, which is imported by
every source file but is not part of the sources; a point is a pair of coordinates `x`, `y`.
`ref` is the identity of the JavaScript object: `Set` membership compares objects by identity,
`testPointEquality` compares coordinates. -/
structure Point where
  ref : ℕ
  x : ℚ
  y : ℚ
  deriving DecidableEq

/-- Class `Rect` of `src/geometry/rect.js`: centre `x`, `y` and full `width`, `height`. -/
structure Rect where
  x : ℚ
  y : ℚ
  width : ℚ
  height : ℚ
  deriving DecidableEq

/-- Getter `get top() { return this.y - this.height / 2 }` -/
def Rect.top (this : Rect) : ℚ := this.y - this.height / 2

/-- Getter `get bottom() { return this.y + this.height / 2 }` -/
def Rect.bottom (this : Rect) : ℚ := this.y + this.height / 2

/-- Getter `get left() { return this.x - this.width / 2 }` -/
def Rect.left (this : Rect) : ℚ := this.x - this.width / 2

/-- Getter `get right() { return this.x + this.width / 2 }` -/
def Rect.right (this : Rect) : ℚ := this.x + this.width / 2

/-- Method `Rect.contains(point)`. -/
def Rect.contains (this : Rect) (point : Point) : Bool :=
  decide (point.x ≥ this.left) &&
  decide (point.x ≤ this.right) &&
  decide (point.y ≥ this.top) &&
  decide (point.y ≤ this.bottom)

/-- Method `Rect.intersects(range)`. -/
def Rect.intersects (this : Rect) (range : Rect) : Bool :=
  !(decide (range.left > this.right) ||
    decide (range.right < this.left) ||
    decide (range.top > this.bottom) ||
    decide (range.bottom < this.top))

/-- Class `Circle` of `src/geometry/circle.js`. -/
structure Circle where
  x : ℚ
  y : ℚ
  radius : ℚ
  deriving DecidableEq

/-- Method `Circle.contains(point)`. -/
def Circle.contains (this : Circle) (point : Point) : Bool :=
  let xDiff := point.x - this.x
  let yDiff := point.y - this.y
  decide (xDiff * xDiff + yDiff * yDiff ≤ this.radius * this.radius)

/-- Method `Circle.intersects(range)`. -/
def Circle.intersects (this : Circle) (range : Rect) : Bool :=
  let xDiff := |range.x - this.x|
  let yDiff := |range.y - this.y|
  if xDiff > range.width / 2 + this.radius then false
  else if yDiff > range.height / 2 + this.radius then false
  else if xDiff ≤ range.width / 2 then true
  else if yDiff ≤ range.height / 2 then true
  else
    let cX := xDiff - range.width / 2
    let cY := yDiff - range.height / 2
    let cornerDist := cX * cX + cY * cY
    decide (cornerDist ≤ this.radius * this.radius)

/-- The `Shape` typedef of `src/geometry/shape.js`, with the two implementations the
repository has. -/
inductive Shape where
  | rect (r : Rect)
  | circle (c : Circle)
  deriving DecidableEq

/-- Call `shape.contains(point)`. -/
def Shape.contains : Shape → Point → Bool
  | .rect r, point => r.contains point
  | .circle c, point => c.contains point

/-- Call `shape.intersects(range)` for a `range` that is a `Rect`. -/
def Shape.intersects : Shape → Rect → Bool
  | .rect r, range => r.intersects range
  | .circle c, range => c.intersects range

/-- The call `bounds.contains(point)` where `bounds` is the value read from a property that
may never have been assigned: reading `contains` of `undefined` throws. -/
def callContains : Option Rect → Point → Completion Bool
  | none, _ => .typeError
  | some bounds, point => .normal (bounds.contains point)

/-- The call `range.intersects(bounds)` where the argument `bounds` may be `undefined`:
`Rect.intersects` first reads `range.left` and `Circle.intersects` first reads `range.x` of
its argument, which throws on `undefined`. -/
def callIntersects : Shape → Option Rect → Completion Bool
  | _, none => .typeError
  | range, some bounds => .normal (range.intersects bounds)

/-! ## Superset -/

/-- Value of the property `_array` of a `Superset`: never assigned (`undefined`), `null`, or
an array. -/
inductive JsArray (α : Type) where
  | undefined
  | null
  | array (items : List α)
  deriving DecidableEq

/-- Class `Superset extends Set`: the elements in insertion order, without duplicates, and
the property `_array`. -/
structure Superset (α : Type) where
  values : List α
  _array : JsArray α
  deriving DecidableEq

/-- Constructor `constructor(entries) { super(entries); }` called without entries. Nothing assigns
`_array`. -/
def Superset.constructor {α : Type} : Superset α :=
  { values := [], _array := .undefined }

/-- Property `Set.prototype.size`. -/
def Superset.size {α : Type} (this : Superset α) : ℕ := this.values.length

/-- Method `Set.prototype.add(v)`: appends `v` unless it is present already. -/
def Superset.add {α : Type} [DecidableEq α] (this : Superset α) (v : α) : Superset α :=
  if v ∈ this.values then this else { this with values := this.values ++ [v] }

/-- Method `Set.prototype.has(v)`. -/
def Superset.has {α : Type} [DecidableEq α] (this : Superset α) (v : α) : Bool :=
  decide (v ∈ this.values)

/-- Method `Set.prototype.delete(v)`: the set without `v`, and whether `v` was present. -/
def Superset.delete {α : Type} [DecidableEq α] (this : Superset α) (v : α) :
    Superset α × Bool :=
  ({ this with values := this.values.erase v }, decide (v ∈ this.values))

/-- Method `Set.prototype.clear()`. -/
def Superset.clear {α : Type} (this : Superset α) : Superset α :=
  { this with values := [] }

/-- Method `Superset.every(fn)`. -/
def Superset.every {α : Type} (this : Superset α) (fn : α → Bool) : Bool :=
  this.values.all fn

/-- Method `Superset.array()`:
`if (this._array === null || this._array.length !== this.size) this._array = [...this.values()];`
`return this._array;`
Reading `length` of an `_array` that is `undefined` throws before anything is assigned. -/
def Superset.array {α : Type} (this : Superset α) : Completion (Superset α × List α) :=
  match this._array with
  | .null => .normal ({ this with _array := .array this.values }, this.values)
  | .undefined => .typeError
  | .array items =>
    if items.length ≠ this.size then
      .normal ({ this with _array := .array this.values }, this.values)
    else
      .normal (this, items)

/-! ## QuadTree -/

/-- The `QuadTreeOpts` typedef. -/
structure QuadTreeOpts where
  maxDepth : ℤ
  maxPointsPerNode : ℤ
  removeEmptyNodes : Bool
  deriving DecidableEq

/-- Constant `defaultQuadtreeOpts`. -/
def defaultQuadtreeOpts : QuadTreeOpts :=
  { maxDepth := -1, maxPointsPerNode := 4, removeEmptyNodes := false }

/-- An options object as a caller passes it: each property is present or absent. -/
structure OptsArg where
  maxDepth : Option ℤ
  maxPointsPerNode : Option ℤ
  removeEmptyNodes : Option Bool
  deriving DecidableEq

/-- A complete options object seen as an argument. -/
def QuadTreeOpts.toArg (o : QuadTreeOpts) : OptsArg :=
  { maxDepth := some o.maxDepth,
    maxPointsPerNode := some o.maxPointsPerNode,
    removeEmptyNodes := some o.removeEmptyNodes }

/-- The object spread `{ ...base, ...opts }`, where `opts` may be `undefined`. -/
def spreadOpts (base : QuadTreeOpts) : Option OptsArg → QuadTreeOpts
  | none => base
  | some o =>
    { maxDepth := o.maxDepth.getD base.maxDepth,
      maxPointsPerNode := o.maxPointsPerNode.getD base.maxPointsPerNode,
      removeEmptyNodes := o.removeEmptyNodes.getD base.removeEmptyNodes }

/-- Address of a `QuadTree` object in the heap. -/
abbrev Ref := ℕ

/-- A `QuadTree` object: the properties the methods read and write. `bounds` is `none` when
the property was never assigned, so that reading it gives `undefined`. -/
structure QuadTree where
  bounds : Option Rect
  opts : QuadTreeOpts
  points : Superset Point
  nodes : Superset Ref
  deriving DecidableEq

/-- The heap of `QuadTree` objects; an object's address is its index. -/
abbrev Heap := List QuadTree

/-- Result of a method that may change the heap: `none` when the fuel ran out, otherwise the
heap after the call and the completion of the call. -/
abbrev Step (α : Type) := Option (Heap × Completion α)

/-- Assignment to properties of the object at address `r`. -/
def Heap.write (h : Heap) (r : Ref) (o : QuadTree) : Heap := h.set r o

/-- Constructor call `new QuadTree(bounds, opts)`: the constructor assigns `this.opts`,
`this.points` and `this.nodes`, and nothing else, so its parameter `bounds` goes unused; the
new object gets the next free address. -/
def QuadTree.constructor (h : Heap) (_bounds : Rect) (opts : Option OptsArg) : Heap × Ref :=
  (h ++ [{ bounds := none,
           opts := spreadOpts defaultQuadtreeOpts opts,
           points := Superset.constructor,
           nodes := Superset.constructor }],
   h.length)

/-- Function `testPointEquality(a, b)`. -/
def testPointEquality (a b : Point) : Bool :=
  decide (a.x = b.x) && decide (a.y = b.y)

/-- The loop `for (const node of this.nodes) { if (node.insertRecursive(point)) return true; }`
followed by `return false`. -/
def QuadTree.insertIntoNodes (insertRecursive : Heap → Ref → Point → Step Bool)
    (point : Point) : Heap → List Ref → Step Bool
  | h, [] => some (h, .normal false)
  | h, node :: rest =>
    match insertRecursive h node point with
    | none => none
    | some (h1, .typeError) => some (h1, .typeError)
    | some (h1, .normal true) => some (h1, .normal true)
    | some (h1, .normal false) => QuadTree.insertIntoNodes insertRecursive point h1 rest

/-- The body of `insert(...points)`, with the current `returnValue`. -/
def QuadTree.insertLoop (insertRecursive : Heap → Ref → Point → Step Bool)
    (this : Ref) : Heap → List Point → Bool → Step Bool
  | h, [], returnValue => some (h, .normal returnValue)
  | h, point :: rest, returnValue =>
    match insertRecursive h this point with
    | none => none
    | some (h1, .typeError) => some (h1, .typeError)
    | some (h1, .normal r) =>
      QuadTree.insertLoop insertRecursive this h1 rest (if r then true else returnValue)

/-- Method `divide()`, where `insertRecursive` is the method its call of `this.insert` reaches. -/
def QuadTree.divideWith (insertRecursive : Heap → Ref → Point → Step Bool)
    (h : Heap) (this : Ref) : Step Unit :=
  match h[this]? with
  | none => none
  | some self =>
    let maxDepth := self.opts.maxDepth
    let childMaxDepth := if maxDepth = -1 then -1 else maxDepth - 1
    let childOpts : QuadTreeOpts := { self.opts with maxDepth := childMaxDepth }
    match self.bounds with
    | none => some (h, .typeError)
    | some bounds =>
      let x := bounds.x
      let y := bounds.y
      let width := bounds.width / 2
      let height := bounds.height / 2
      let ne : Rect := ⟨x + width / 2, y - height / 2, width, height⟩
      let nw : Rect := ⟨x - width / 2, y - height / 2, width, height⟩
      let se : Rect := ⟨x + width / 2, y + height / 2, width, height⟩
      let sw : Rect := ⟨x - width / 2, y + height / 2, width, height⟩
      let (h1, c1) := QuadTree.constructor h ne (some childOpts.toArg)
      let (h2, c2) := QuadTree.constructor h1 nw (some childOpts.toArg)
      let (h3, c3) := QuadTree.constructor h2 se (some childOpts.toArg)
      let (h4, c4) := QuadTree.constructor h3 sw (some childOpts.toArg)
      let self1 : QuadTree :=
        { self with nodes := (((self.nodes.add c1).add c2).add c3).add c4 }
      let h5 := h4.write this self1
      match self1.points.array with
      | .typeError => some (h5, .typeError)
      | .normal (points1, arr) =>
        let h6 := h5.write this { self1 with points := points1 }
        match QuadTree.insertLoop insertRecursive this h6 arr false with
        | none => none
        | some (h7, .typeError) => some (h7, .typeError)
        | some (h7, .normal _) =>
          match h7[this]? with
          | none => none
          | some self2 =>
            some (h7.write this { self2 with points := self2.points.clear }, .normal ())

/-- One activation of `insertRecursive(point)`; `insertRecursive` is the method as its nested
calls reach it. -/
def QuadTree.insertRecursiveStep (insertRecursive : Heap → Ref → Point → Step Bool)
    (h : Heap) (this : Ref) (point : Point) : Step Bool :=
  match h[this]? with
  | none => none
  | some self =>
    match callContains self.bounds point with
    | .typeError => some (h, .typeError)
    | .normal false => some (h, .normal false)
    | .normal true =>
      let pointCount : ℤ := self.points.size
      let maxPointCount := self.opts.maxPointsPerNode
      let maxDepth := self.opts.maxDepth
      let children : Heap → Step Bool := fun h1 =>
        match h1[this]? with
        | none => none
        | some self1 =>
          if self1.nodes.size > 0 then
            QuadTree.insertIntoNodes insertRecursive point h1 self1.nodes.values
          else some (h1, .normal false)
      if self.nodes.size = 0 then
        if pointCount < maxPointCount ∨ maxDepth = 0 then
          some (h.write this { self with points := self.points.add point }, .normal true)
        else if maxDepth = -1 ∨ maxDepth > 0 then
          match QuadTree.divideWith insertRecursive h this with
          | none => none
          | some (h1, .typeError) => some (h1, .typeError)
          | some (h1, .normal _) => children h1
        else children h
      else children h

/-- Method `insertRecursive(point)` on the object at `this`; `fuel` bounds the depth of nested
calls of the method. -/
def QuadTree.insertRecursive : ℕ → Heap → Ref → Point → Step Bool
  | 0 => fun _ _ _ => none
  | fuel + 1 => QuadTree.insertRecursiveStep (QuadTree.insertRecursive fuel)

/-- Method `insert(...points)`. -/
def QuadTree.insert (fuel : ℕ) (h : Heap) (this : Ref) (points : List Point) : Step Bool :=
  QuadTree.insertLoop (QuadTree.insertRecursive fuel) this h points false

/-- Method `divide()`. -/
def QuadTree.divide (fuel : ℕ) (h : Heap) (this : Ref) : Step Unit :=
  QuadTree.divideWith (QuadTree.insertRecursive fuel) h this

/-- The loop
`for (const node of this.nodes) { if (node.removeRecursive(point)) returnValue = true; }`
with the current `returnValue`. -/
def QuadTree.removeFromNodes (removeRecursive : Heap → Ref → Point → Step Bool)
    (point : Point) : Heap → List Ref → Bool → Step Bool
  | h, [], returnValue => some (h, .normal returnValue)
  | h, node :: rest, returnValue =>
    match removeRecursive h node point with
    | none => none
    | some (h1, .typeError) => some (h1, .typeError)
    | some (h1, .normal r) =>
      QuadTree.removeFromNodes removeRecursive point h1 rest (if r then true else returnValue)

/-- The test `n.points.size === 0 && n.nodes.size === 0` on the object at address `n`. -/
def QuadTree.isEmptyLeaf (h : Heap) (n : Ref) : Bool :=
  match h[n]? with
  | none => false
  | some node => decide (node.points.size = 0) && decide (node.nodes.size = 0)

/-- One activation of `removeRecursive(point)`. -/
def QuadTree.removeRecursiveStep (removeRecursive : Heap → Ref → Point → Step Bool)
    (h : Heap) (this : Ref) (point : Point) : Step Bool :=
  match h[this]? with
  | none => none
  | some self =>
    match callContains self.bounds point with
    | .typeError => some (h, .typeError)
    | .normal false => some (h, .normal false)
    | .normal true =>
      if self.nodes.size = 0 then
        match self.points.values.find? (fun p => testPointEquality point p) with
        | some p =>
          some (h.write this { self with points := (self.points.delete p).1 }, .normal true)
        | none => some (h, .normal false)
      else
        match QuadTree.removeFromNodes removeRecursive point h self.nodes.values false with
        | none => none
        | some (h1, .typeError) => some (h1, .typeError)
        | some (h1, .normal returnValue) =>
          match h1[this]? with
          | none => none
          | some self1 =>
            if self1.opts.removeEmptyNodes then
              if self1.nodes.every (QuadTree.isEmptyLeaf h1) then
                some (h1.write this { self1 with nodes := self1.nodes.clear },
                      .normal returnValue)
              else some (h1, .normal returnValue)
            else some (h1, .normal returnValue)

/-- Method `removeRecursive(point)` on the object at `this`. -/
def QuadTree.removeRecursive : ℕ → Heap → Ref → Point → Step Bool
  | 0 => fun _ _ _ => none
  | fuel + 1 => QuadTree.removeRecursiveStep (QuadTree.removeRecursive fuel)

/-- The body of `remove(...points)`, with the current `returnValue`. -/
def QuadTree.removeLoop (removeRecursive : Heap → Ref → Point → Step Bool)
    (this : Ref) : Heap → List Point → Bool → Step Bool
  | h, [], returnValue => some (h, .normal returnValue)
  | h, point :: rest, returnValue =>
    match removeRecursive h this point with
    | none => none
    | some (h1, .typeError) => some (h1, .typeError)
    | some (h1, .normal r) =>
      QuadTree.removeLoop removeRecursive this h1 rest (if r then true else returnValue)

/-- Method `remove(...points)`. -/
def QuadTree.remove (fuel : ℕ) (h : Heap) (this : Ref) (points : List Point) : Step Bool :=
  QuadTree.removeLoop (QuadTree.removeRecursive fuel) this h points false

/-- The loop `for (const node of this.nodes) { pointsFound.push(...node.queryRecursive(range)); }`
with the current `pointsFound`. -/
def QuadTree.queryNodes (queryRecursive : Ref → Option (Completion (List Point))) :
    List Ref → List Point → Option (Completion (List Point))
  | [], pointsFound => some (.normal pointsFound)
  | node :: rest, pointsFound =>
    match queryRecursive node with
    | none => none
    | some .typeError => some .typeError
    | some (.normal found) => QuadTree.queryNodes queryRecursive rest (pointsFound ++ found)

/-- Method `queryRecursive(range)` on the object at `this`; it changes no object. -/
def QuadTree.queryRecursive : ℕ → Heap → Ref → Shape → Option (Completion (List Point))
  | 0, _, _, _ => none
  | fuel + 1, h, this, range =>
    match h[this]? with
    | none => none
    | some self =>
      match callIntersects range self.bounds with
      | .typeError => some .typeError
      | .normal false => some (.normal [])
      | .normal true =>
        if self.nodes.size > 0 then
          QuadTree.queryNodes (fun node => QuadTree.queryRecursive fuel h node range)
            self.nodes.values []
        else
          some (.normal (self.points.values.filter (fun point => range.contains point)))

/-- Method `query(range)`. -/
def QuadTree.query (fuel : ℕ) (h : Heap) (this : Ref) (range : Shape) :
    Option (Completion (List Point)) :=
  QuadTree.queryRecursive fuel h this range

/-- The loop `for (const node of this.nodes) { points.push(...node.getAllPointsRecursive()); }`
with the current `points`. -/
def QuadTree.allPointsOfNodes (getAllPointsRecursive : Ref → Option (List Point)) :
    List Ref → List Point → Option (List Point)
  | [], points => some points
  | node :: rest, points =>
    match getAllPointsRecursive node with
    | none => none
    | some found => QuadTree.allPointsOfNodes getAllPointsRecursive rest (points ++ found)

/-- Method `getAllPointsRecursive()` on the object at `this`; it changes no object and cannot
throw. -/
def QuadTree.getAllPointsRecursive : ℕ → Heap → Ref → Option (List Point)
  | 0, _, _ => none
  | fuel + 1, h, this =>
    match h[this]? with
    | none => none
    | some self =>
      if self.nodes.size > 0 then
        QuadTree.allPointsOfNodes (fun node => QuadTree.getAllPointsRecursive fuel h node)
          self.nodes.values []
      else
        some self.points.values

/-- Method `getPoints()`. -/
def QuadTree.getPoints (fuel : ℕ) (h : Heap) (this : Ref) : Option (List Point) :=
  QuadTree.getAllPointsRecursive fuel h this

/-- The `Tree` typedef: `{divided: true, nodes}` or `{divided: false, points}`. -/
inductive Tree where
  | divided (nodes : List Tree)
  | undivided (points : List Point)

/-- The call `array.map((n) => n.getTree())`, with the trees produced so far. -/
def QuadTree.getTreeOfNodes (getTree : Heap → Ref → Step Tree) :
    Heap → List Ref → List Tree → Step (List Tree)
  | h, [], trees => some (h, .normal trees)
  | h, n :: rest, trees =>
    match getTree h n with
    | none => none
    | some (h1, .typeError) => some (h1, .typeError)
    | some (h1, .normal t) => QuadTree.getTreeOfNodes getTree h1 rest (trees ++ [t])

/-- Method `getTree()` on the object at `this`. The calls of `array()` assign `_array`, so
the method returns a heap. -/
def QuadTree.getTree : ℕ → Heap → Ref → Step Tree
  | 0, _, _ => none
  | fuel + 1, h, this =>
    match h[this]? with
    | none => none
    | some self =>
      if self.nodes.size > 0 then
        match self.nodes.array with
        | .typeError => some (h, .typeError)
        | .normal (nodes1, arr) =>
          match QuadTree.getTreeOfNodes (QuadTree.getTree fuel)
              (h.write this { self with nodes := nodes1 }) arr [] with
          | none => none
          | some (h1, .typeError) => some (h1, .typeError)
          | some (h1, .normal trees) => some (h1, .normal (.divided trees))
      else
        match self.points.array with
        | .typeError => some (h, .typeError)
        | .normal (points1, arr) =>
          some (h.write this { self with points := points1 }, .normal (.undivided arr))

/-! ## Reachable trees -/

/-- Address of the root: the first object allocated. -/
def root : Ref := 0

/-- The heap after `new QuadTree(bounds, opts)` ran on an empty heap. -/
def QuadTree.fresh (bounds : Rect) (opts : Option OptsArg) : Heap :=
  (QuadTree.constructor [] bounds opts).1

/-- The heaps a caller can produce from `new QuadTree(bounds, opts)` by public calls on the
root. A call that throws leaves the heap it had built up to the throw. `query` and `getPoints`
change no object and so need no rule. -/
inductive Reachable (bounds : Rect) (opts : Option OptsArg) : Heap → Prop where
  | construct : Reachable bounds opts (QuadTree.fresh bounds opts)
  | insert {h h1 : Heap} {c : Completion Bool} (fuel : ℕ) (points : List Point) :
      Reachable bounds opts h → QuadTree.insert fuel h root points = some (h1, c) →
      Reachable bounds opts h1
  | remove {h h1 : Heap} {c : Completion Bool} (fuel : ℕ) (points : List Point) :
      Reachable bounds opts h → QuadTree.remove fuel h root points = some (h1, c) →
      Reachable bounds opts h1
  | getTree {h h1 : Heap} {c : Completion Tree} (fuel : ℕ) :
      Reachable bounds opts h → QuadTree.getTree fuel h root = some (h1, c) →
      Reachable bounds opts h1

/-- The objects at nesting depth `d` below the root: the root itself at depth 0, and the
members of `nodes` of the objects one level up. -/
def QuadTree.nodesAtDepth (h : Heap) : ℕ → List Ref
  | 0 => [root]
  | d + 1 =>
    (QuadTree.nodesAtDepth h d).flatMap fun r =>
      match h[r]? with
      | none => []
      | some n => n.nodes.values

/-- Every object of `g` is still allocated in `g1`, with the options it had. -/
def KeepsOpts (g g1 : Heap) : Prop :=
  ∀ (r : Ref) (n : QuadTree), g[r]? = some n →
    ∃ n1 : QuadTree, g1[r]? = some n1 ∧ n1.opts = n.opts

/-! ## Definitions for the geometry and invariant claims -/

/-- Stated from the claim: the closest-point test `dx*dx + dy*dy <= radius*radius` with
`dx = max(|r.x - c.x| - r.width/2, 0)` and `dy = max(|r.y - c.y| - r.height/2, 0)`. -/
def Circle.closestPointTest (c : Circle) (r : Rect) : Bool :=
  let dx := max (|r.x - c.x| - r.width / 2) 0
  let dy := max (|r.y - c.y| - r.height / 2) 0
  decide (dx * dx + dy * dy ≤ c.radius * c.radius)

/-- The property `P` holds of every object of the heap. -/
def EveryNode (P : QuadTree → Prop) (g : Heap) : Prop :=
  ∀ (r : Ref) (n : QuadTree), g[r]? = some n → P n

/-- The points a node holds itself lie inside the node's bounds. -/
def PointsInside (n : QuadTree) : Prop :=
  ∀ p ∈ n.points.values, callContains n.bounds p = .normal true

/-- A node has no children or exactly four. -/
def ChildCount (n : QuadTree) : Prop :=
  n.nodes.size = 0 ∨ n.nodes.size = 4

/-- A node with children holds no points itself. -/
def Exclusive (n : QuadTree) : Prop :=
  0 < n.nodes.size → n.points.size = 0

/-- A property of single objects that every assignment made on behalf of `insertRecursive`
keeps: object creation, storing an accepted point in an undivided node, gaining four
children, caching the array of points, and clearing the points. -/
structure StableUnderInsert (P : QuadTree → Prop) : Prop where
  created : ∀ o : QuadTreeOpts,
    P { bounds := none, opts := o, points := Superset.constructor,
        nodes := Superset.constructor }
  stored : ∀ (self : QuadTree) (p : Point), P self → self.nodes.size = 0 →
    callContains self.bounds p = .normal true →
    P { self with points := self.points.add p }
  divided : ∀ (self : QuadTree) (nodes1 : Superset Ref), P self → self.nodes.size = 0 →
    nodes1.size = 4 → P { self with nodes := nodes1 }
  cached : ∀ (self : QuadTree) (points1 : Superset Point), P self →
    points1.values = self.points.values → P { self with points := points1 }
  cleared : ∀ self : QuadTree, P self → P { self with points := self.points.clear }

/-- A property of single objects that every assignment made on behalf of `removeRecursive`
keeps: deleting a point of an undivided node, and dropping the children. -/
structure StableUnderRemove (P : QuadTree → Prop) : Prop where
  deleted : ∀ (self : QuadTree) (q : Point), P self → self.nodes.size = 0 →
    P { self with points := (self.points.delete q).1 }
  collapsed : ∀ self : QuadTree, P self → P { self with nodes := self.nodes.clear }

/-- A call of one of the methods that read or change a `Superset`. -/
inductive SupersetCall (α : Type) where
  | add (v : α)
  | delete (v : α)
  | clear
  | array

/-- The set after one call. A call of `array()` that throws leaves the set as it was. -/
def Superset.afterCall {α : Type} [DecidableEq α] (this : Superset α) :
    SupersetCall α → Superset α
  | .add v => this.add v
  | .delete v => (this.delete v).1
  | .clear => this.clear
  | .array =>
    match this.array with
    | .typeError => this
    | .normal (this1, _) => this1

/-- The set after a sequence of calls. -/
def Superset.afterCalls {α : Type} [DecidableEq α] (this : Superset α)
    (calls : List (SupersetCall α)) : Superset α :=
  calls.foldl Superset.afterCall this

/-- Constructor `constructor(entries) { super(entries); }` called with entries: `Set` adds
them in order. -/
def Superset.constructorOf {α : Type} [DecidableEq α] (entries : List α) : Superset α :=
  entries.foldl Superset.add Superset.constructor

/-! ## The freshly constructed tree -/

theorem fresh_root (bounds : Rect) (opts : Option OptsArg) :
    (QuadTree.fresh bounds opts)[root]? =
      some { bounds := none, opts := spreadOpts defaultQuadtreeOpts opts,
             points := Superset.constructor, nodes := Superset.constructor } := rfl

theorem insert_fresh (bounds : Rect) (opts : Option OptsArg) (p : Point) (ps : List Point)
    (fuel : ℕ) :
    QuadTree.insert (fuel + 1) (QuadTree.fresh bounds opts) root (p :: ps) =
      some (QuadTree.fresh bounds opts, .typeError) := rfl

theorem remove_fresh (bounds : Rect) (opts : Option OptsArg) (p : Point) (ps : List Point)
    (fuel : ℕ) :
    QuadTree.remove (fuel + 1) (QuadTree.fresh bounds opts) root (p :: ps) =
      some (QuadTree.fresh bounds opts, .typeError) := rfl

theorem getTree_fresh (bounds : Rect) (opts : Option OptsArg) (fuel : ℕ) :
    QuadTree.getTree (fuel + 1) (QuadTree.fresh bounds opts) root =
      some (QuadTree.fresh bounds opts, .typeError) := rfl

theorem getPoints_fresh (bounds : Rect) (opts : Option OptsArg) (fuel : ℕ) :
    QuadTree.getPoints (fuel + 1) (QuadTree.fresh bounds opts) root = some [] := rfl

theorem query_fresh (bounds : Rect) (opts : Option OptsArg) (range : Shape) (fuel : ℕ) :
    QuadTree.query (fuel + 1) (QuadTree.fresh bounds opts) root range = some .typeError := by
  cases range <;> rfl

/-- Whatever `insert` is given, on the fresh tree it changes nothing and does not return a
value other than `false` (which it returns only for no points at all). -/
theorem insert_fresh_heap (bounds : Rect) (opts : Option OptsArg) (fuel : ℕ)
    (ps : List Point) (h1 : Heap) (c : Completion Bool)
    (hc : QuadTree.insert fuel (QuadTree.fresh bounds opts) root ps = some (h1, c)) :
    h1 = QuadTree.fresh bounds opts ∧ c ≠ .normal true ∧ (ps ≠ [] → c = .typeError) := by
  cases ps with
  | nil =>
    simp only [QuadTree.insert, QuadTree.insertLoop, Option.some.injEq, Prod.mk.injEq] at hc
    obtain ⟨rfl, rfl⟩ := hc
    simp
  | cons p ps =>
    cases fuel with
    | zero => simp [QuadTree.insert, QuadTree.insertLoop, QuadTree.insertRecursive] at hc
    | succ n =>
      rw [insert_fresh] at hc
      simp only [Option.some.injEq, Prod.mk.injEq] at hc
      obtain ⟨rfl, rfl⟩ := hc
      simp

theorem remove_fresh_heap (bounds : Rect) (opts : Option OptsArg) (fuel : ℕ)
    (ps : List Point) (h1 : Heap) (c : Completion Bool)
    (hc : QuadTree.remove fuel (QuadTree.fresh bounds opts) root ps = some (h1, c)) :
    h1 = QuadTree.fresh bounds opts ∧ c ≠ .normal true ∧ (ps ≠ [] → c = .typeError) := by
  cases ps with
  | nil =>
    simp only [QuadTree.remove, QuadTree.removeLoop, Option.some.injEq, Prod.mk.injEq] at hc
    obtain ⟨rfl, rfl⟩ := hc
    simp
  | cons p ps =>
    cases fuel with
    | zero => simp [QuadTree.remove, QuadTree.removeLoop, QuadTree.removeRecursive] at hc
    | succ n =>
      rw [remove_fresh] at hc
      simp only [Option.some.injEq, Prod.mk.injEq] at hc
      obtain ⟨rfl, rfl⟩ := hc
      simp

theorem getTree_fresh_heap (bounds : Rect) (opts : Option OptsArg) (fuel : ℕ)
    (h1 : Heap) (c : Completion Tree)
    (hc : QuadTree.getTree fuel (QuadTree.fresh bounds opts) root = some (h1, c)) :
    h1 = QuadTree.fresh bounds opts := by
  cases fuel with
  | zero => simp [QuadTree.getTree] at hc
  | succ n =>
    rw [getTree_fresh] at hc
    simp only [Option.some.injEq, Prod.mk.injEq] at hc
    exact hc.1.symm

/-- No public call changes the freshly constructed tree: `insert` and `remove` throw on
their first point before they assign anything, `getTree` throws in `array()`, and `query`
and `getPoints` assign nothing. -/
theorem reachable_eq_fresh {bounds : Rect} {opts : Option OptsArg} {h : Heap}
    (hr : Reachable bounds opts h) : h = QuadTree.fresh bounds opts := by
  induction hr with
  | construct => rfl
  | insert fuel points _ hc ih =>
    subst ih
    exact (insert_fresh_heap bounds opts fuel points _ _ hc).1
  | remove fuel points _ hc ih =>
    subst ih
    exact (remove_fresh_heap bounds opts fuel points _ _ hc).1
  | getTree fuel _ hc ih =>
    subst ih
    exact getTree_fresh_heap bounds opts fuel _ _ hc

theorem nodesAtDepth_fresh (bounds : Rect) (opts : Option OptsArg) (d : ℕ) :
    QuadTree.nodesAtDepth (QuadTree.fresh bounds opts) (d + 1) = [] := by
  induction d with
  | zero => rfl
  | succ k ih => rw [QuadTree.nodesAtDepth, ih]; rfl

/-! ## Facts about single methods, on any heap -/

/-- Method `divide()` cannot complete on a node whose `points` set never had `_array`
assigned: it throws at `this.bounds.x`, or at `this.points.array()`. -/
theorem divideWith_throws (g : Heap) (this : Ref) (self : QuadTree)
    (insertRecursive : Heap → Ref → Point → Step Bool)
    (hs : g[this]? = some self) (ha : self.points._array = .undefined) :
    ∃ g1, QuadTree.divideWith insertRecursive g this = some (g1, .typeError) := by
  cases hb : self.bounds with
  | none => exact ⟨g, by simp only [QuadTree.divideWith, hs, hb]⟩
  | some b =>
    simp only [QuadTree.divideWith, hs, hb, QuadTree.constructor, Superset.array, ha]
    exact ⟨_, rfl⟩

/-- A node with `maxDepth` 0 and no children keeps having no children under
`insertRecursive`, no object is created, and a point the call accepts is in the node's own
`points`. -/
theorem insertRecursive_maxDepth_zero (g : Heap) (this : Ref) (self : QuadTree) (p : Point)
    (fuel : ℕ) (g1 : Heap) (c : Completion Bool)
    (hs : g[this]? = some self) (hd : self.opts.maxDepth = 0) (hn : self.nodes.size = 0)
    (hc : QuadTree.insertRecursive fuel g this p = some (g1, c)) :
    g1.length = g.length ∧
    ∃ self1, g1[this]? = some self1 ∧ self1.nodes.size = 0 ∧
      (c = .normal true → p ∈ self1.points.values) := by
  cases fuel with
  | zero => simp [QuadTree.insertRecursive] at hc
  | succ n =>
    have hlt : this < g.length := by
      by_contra hge
      rw [List.getElem?_eq_none (not_lt.mp hge)] at hs
      cases hs
    simp only [QuadTree.insertRecursive, QuadTree.insertRecursiveStep, hs] at hc
    cases hcc : callContains self.bounds p with
    | typeError =>
      simp only [hcc, Option.some.injEq, Prod.mk.injEq] at hc
      obtain ⟨rfl, rfl⟩ := hc
      exact ⟨rfl, self, hs, hn, by simp⟩
    | normal b =>
      cases b with
      | false =>
        simp only [hcc, Option.some.injEq, Prod.mk.injEq] at hc
        obtain ⟨rfl, rfl⟩ := hc
        exact ⟨rfl, self, hs, hn, by simp⟩
      | true =>
        simp only [hcc, hn, hd, or_true, if_true, Option.some.injEq, Prod.mk.injEq] at hc
        obtain ⟨rfl, rfl⟩ := hc
        refine ⟨by simp [Heap.write], { self with points := self.points.add p }, ?_, hn, ?_⟩
        · simp [Heap.write, hlt]
        · intro _
          simp only [Superset.add]
          split <;> simp_all

theorem KeepsOpts.refl (g : Heap) : KeepsOpts g g := fun _ n hn => ⟨n, hn, rfl⟩

theorem KeepsOpts.trans {g g1 g2 : Heap} (h1 : KeepsOpts g g1) (h2 : KeepsOpts g1 g2) :
    KeepsOpts g g2 := fun r n hn => by
  obtain ⟨n1, hn1, e1⟩ := h1 r n hn
  obtain ⟨n2, hn2, e2⟩ := h2 r n1 hn1
  exact ⟨n2, hn2, e2.trans e1⟩

theorem getElem?_lt {g : Heap} {r : Ref} {n : QuadTree} (h : g[r]? = some n) : r < g.length := by
  by_contra hge
  rw [List.getElem?_eq_none (not_lt.mp hge)] at h
  cases h

theorem KeepsOpts.write {g : Heap} {this : Ref} {self n1 : QuadTree}
    (hs : g[this]? = some self) (ho : n1.opts = self.opts) : KeepsOpts g (g.write this n1) := by
  intro r n hn
  by_cases hr : this = r
  · subst hr
    refine ⟨n1, ?_, ?_⟩
    · simp [Heap.write, getElem?_lt hs]
    · rw [hs] at hn
      cases hn
      exact ho
  · exact ⟨n, by simp [Heap.write, List.getElem?_set_ne hr, hn], rfl⟩

theorem KeepsOpts.constructor (g : Heap) (b : Rect) (o : Option OptsArg) :
    KeepsOpts g (QuadTree.constructor g b o).1 := by
  intro r n hn
  exact ⟨n, by simp [QuadTree.constructor, List.getElem?_append_left (getElem?_lt hn), hn], rfl⟩

theorem KeepsOpts.insertIntoNodes {rec : Heap → Ref → Point → Step Bool}
    (hrec : ∀ g r p g1 c, rec g r p = some (g1, c) → KeepsOpts g g1) (p : Point) :
    ∀ (refs : List Ref) (g g1 : Heap) (c : Completion Bool),
      QuadTree.insertIntoNodes rec p g refs = some (g1, c) → KeepsOpts g g1 := by
  intro refs
  induction refs with
  | nil =>
    intro g g1 c hc
    simp only [QuadTree.insertIntoNodes, Option.some.injEq, Prod.mk.injEq] at hc
    rw [← hc.1]
    exact KeepsOpts.refl g
  | cons node rest ih =>
    intro g g1 c hc
    simp only [QuadTree.insertIntoNodes] at hc
    split at hc
    · cases hc
    · next h1 he =>
      simp only [Option.some.injEq, Prod.mk.injEq] at hc
      rw [← hc.1]
      exact hrec _ _ _ _ _ he
    · next h1 he =>
      simp only [Option.some.injEq, Prod.mk.injEq] at hc
      rw [← hc.1]
      exact hrec _ _ _ _ _ he
    · next h1 he =>
      exact (hrec _ _ _ _ _ he).trans (ih _ _ _ hc)

theorem KeepsOpts.insertLoop {rec : Heap → Ref → Point → Step Bool}
    (hrec : ∀ g r p g1 c, rec g r p = some (g1, c) → KeepsOpts g g1) (this : Ref) :
    ∀ (ps : List Point) (g g1 : Heap) (rv : Bool) (c : Completion Bool),
      QuadTree.insertLoop rec this g ps rv = some (g1, c) → KeepsOpts g g1 := by
  intro ps
  induction ps with
  | nil =>
    intro g g1 rv c hc
    simp only [QuadTree.insertLoop, Option.some.injEq, Prod.mk.injEq] at hc
    rw [← hc.1]
    exact KeepsOpts.refl g
  | cons q rest ih =>
    intro g g1 rv c hc
    simp only [QuadTree.insertLoop] at hc
    split at hc
    · cases hc
    · next h1 he =>
      simp only [Option.some.injEq, Prod.mk.injEq] at hc
      rw [← hc.1]
      exact hrec _ _ _ _ _ he
    · next h1 r he =>
      exact (hrec _ _ _ _ _ he).trans (ih _ _ _ _ hc)

/-- The heap `divide()` has built when it reaches `this.points.array()`: four new objects,
and the object at `this` overwritten. -/
theorem divide_allocates (g : Heap) (this : Ref) (self self1 : QuadTree)
    (o : Option OptsArg) (b1 b2 b3 b4 : Rect) (hs : g[this]? = some self)
    (ho : self1.opts = self.opts) :
    KeepsOpts g
      (((QuadTree.constructor (QuadTree.constructor (QuadTree.constructor
        (QuadTree.constructor g b1 o).1 b2 o).1 b3 o).1 b4 o).1).write this self1) ∧
    (((QuadTree.constructor (QuadTree.constructor (QuadTree.constructor
        (QuadTree.constructor g b1 o).1 b2 o).1 b3 o).1 b4 o).1).write this self1)[this]? =
      some self1 ∧
    ∀ i, i < 4 → ∃ child : QuadTree,
      (((QuadTree.constructor (QuadTree.constructor (QuadTree.constructor
        (QuadTree.constructor g b1 o).1 b2 o).1 b3 o).1 b4 o).1).write this
          self1)[g.length + i]? = some child ∧
      child.opts = spreadOpts defaultQuadtreeOpts o := by
  have hlt := getElem?_lt hs
  have k4 : KeepsOpts g (QuadTree.constructor (QuadTree.constructor (QuadTree.constructor
      (QuadTree.constructor g b1 o).1 b2 o).1 b3 o).1 b4 o).1 :=
    (((KeepsOpts.constructor g b1 o).trans (KeepsOpts.constructor _ b2 o)).trans
      (KeepsOpts.constructor _ b3 o)).trans (KeepsOpts.constructor _ b4 o)
  obtain ⟨n4, hn4, e4⟩ := k4 this self hs
  refine ⟨k4.trans (KeepsOpts.write hn4 (ho.trans e4.symm)), ?_, ?_⟩
  · simp only [Heap.write]
    rw [List.getElem?_set_eq_of_lt _ (getElem?_lt hn4)]
  · intro i hi
    have hne : this ≠ g.length + i :=
      Nat.ne_of_lt (Nat.lt_of_lt_of_le hlt (Nat.le_add_right _ _))
    simp only [Heap.write, QuadTree.constructor, List.append_assoc, List.singleton_append]
    rw [List.getElem?_set_ne hne, List.getElem?_append_right (Nat.le_add_right _ _),
      Nat.add_sub_cancel_left]
    interval_cases i <;> simp

theorem divideWith_keeps {rec : Heap → Ref → Point → Step Bool}
    (hrec : ∀ g r p g1 c, rec g r p = some (g1, c) → KeepsOpts g g1)
    (g : Heap) (this : Ref) (self : QuadTree) (g1 : Heap) (c : Completion Unit)
    (hs : g[this]? = some self) (hc : QuadTree.divideWith rec g this = some (g1, c)) :
    KeepsOpts g g1 ∧ (self.bounds ≠ none → ∀ i, i < 4 → ∃ child : QuadTree,
      g1[g.length + i]? = some child ∧
      child.opts.maxDepth =
        (if self.opts.maxDepth = -1 then -1 else self.opts.maxDepth - 1)) := by
  cases hb : self.bounds with
  | none =>
    simp only [QuadTree.divideWith, hs, hb, Option.some.injEq, Prod.mk.injEq] at hc
    rw [← hc.1]
    exact ⟨KeepsOpts.refl g, fun hne => absurd rfl hne⟩
  | some b =>
    simp only [QuadTree.divideWith, hs, hb] at hc
    generalize hH : Heap.write _ this _ = H5 at hc
    obtain ⟨k5, hs1, h5ch⟩ : KeepsOpts g H5 ∧
        H5[this]? = some { bounds := some b, opts := self.opts, points := self.points,
                           nodes := _ } ∧
        ∀ i, i < 4 → ∃ child : QuadTree, H5[g.length + i]? = some child ∧
          child.opts = spreadOpts defaultQuadtreeOpts (some (QuadTreeOpts.toArg
            { self.opts with
              maxDepth := if self.opts.maxDepth = -1 then -1 else self.opts.maxDepth - 1 })) := by
      rw [← hH]
      refine divide_allocates g this self _ _ _ _ _ _ hs ?_
      rfl
    clear hH
    have carry : ∀ g2, KeepsOpts H5 g2 → KeepsOpts g g2 ∧
        (some b ≠ none → ∀ i, i < 4 →
        ∃ child : QuadTree, g2[g.length + i]? = some child ∧
        child.opts.maxDepth =
          (if self.opts.maxDepth = -1 then -1 else self.opts.maxDepth - 1)) := by
      intro g2 k
      refine ⟨k5.trans k, fun _ i hi => ?_⟩
      obtain ⟨child, hch, hop⟩ := h5ch i hi
      obtain ⟨child2, hch2, hop2⟩ := k _ _ hch
      exact ⟨child2, hch2, by rw [hop2, hop]; simp [spreadOpts, QuadTreeOpts.toArg]⟩
    split at hc
    · simp only [Option.some.injEq, Prod.mk.injEq] at hc
      rw [← hc.1]
      exact carry _ (KeepsOpts.refl _)
    · next points1 arr harr =>
      have k6 : ∀ n1 : QuadTree, n1.opts = self.opts → KeepsOpts H5 (H5.write this n1) :=
        fun n1 ho => KeepsOpts.write hs1 ho
      split at hc
      · cases hc
      · next h7 he =>
        simp only [Option.some.injEq, Prod.mk.injEq] at hc
        rw [← hc.1]
        exact carry _ ((k6 _ (by rfl)).trans (KeepsOpts.insertLoop hrec _ _ _ _ _ _ he))
      · next h7 v he =>
        have k7 := (k6 _ (by rfl)).trans (KeepsOpts.insertLoop hrec _ _ _ _ _ _ he)
        split at hc
        · cases hc
        · next self2 hs2 =>
          simp only [Option.some.injEq, Prod.mk.injEq] at hc
          rw [← hc.1]
          exact carry _ (k7.trans (KeepsOpts.write hs2 rfl))

theorem insertRecursive_keeps (fuel : ℕ) :
    ∀ g r p g1 c, QuadTree.insertRecursive fuel g r p = some (g1, c) → KeepsOpts g g1 := by
  induction fuel with
  | zero =>
    intro g r p g1 c hc
    simp [QuadTree.insertRecursive] at hc
  | succ n ih =>
    intro g this p g1 c hc
    simp only [QuadTree.insertRecursive, QuadTree.insertRecursiveStep] at hc
    split at hc
    · cases hc
    · next self hs =>
      have children : ∀ h1 g1 c,
          (match h1[this]? with
            | none => none
            | some self1 =>
              if self1.nodes.size > 0 then
                QuadTree.insertIntoNodes (QuadTree.insertRecursive n) p h1 self1.nodes.values
              else some (h1, Completion.normal false)) = some (g1, c) → KeepsOpts h1 g1 := by
        intro h1 g1 c hc
        split at hc
        · cases hc
        · split at hc
          · exact KeepsOpts.insertIntoNodes ih p _ _ _ _ hc
          · simp only [Option.some.injEq, Prod.mk.injEq] at hc
            rw [← hc.1]
            exact KeepsOpts.refl _
      split at hc
      · simp only [Option.some.injEq, Prod.mk.injEq] at hc
        rw [← hc.1]
        exact KeepsOpts.refl _
      · simp only [Option.some.injEq, Prod.mk.injEq] at hc
        rw [← hc.1]
        exact KeepsOpts.refl _
      · split at hc
        · split at hc
          · simp only [Option.some.injEq, Prod.mk.injEq] at hc
            rw [← hc.1]
            exact KeepsOpts.write hs rfl
          · split at hc
            · split at hc
              · cases hc
              · next h1 hd =>
                simp only [Option.some.injEq, Prod.mk.injEq] at hc
                rw [← hc.1]
                exact (divideWith_keeps ih _ _ _ _ _ hs hd).1
              · next h1 v hd =>
                exact (divideWith_keeps ih _ _ _ _ _ hs hd).1.trans (children _ _ _ hc)
            · exact children _ _ _ (by rw [hs]; exact hc)
        · exact children _ _ _ (by rw [hs]; exact hc)

/-! ## The claims -/

/-- C1 (insertion never loses a stored point) does not hold of the code. On every tree
reachable from `new QuadTree(bounds, opts)`, `getPoints()` is empty and `insert(q)` throws a
TypeError for every point `q`, inside the bounds or not, leaving the tree as it was: `q` is
not added. The constructor never assigns `this.bounds`, so `this.bounds.contains(point)` reads
a property of `undefined`. Moreover `divide()` cannot re-insert anything on any node whose
`points` set never had `_array` assigned, which is every set the code creates: it throws
before `this.insert(...)` is reached. -/
theorem insert_throws_and_stores_nothing (bounds : Rect) (opts : Option OptsArg) (h : Heap)
    (hr : Reachable bounds opts h) (q : Point) (fuel : ℕ) :
    QuadTree.getPoints (fuel + 1) h root = some [] ∧
    QuadTree.insert (fuel + 1) h root [q] = some (h, .typeError) ∧
    ∀ (g : Heap) (this : Ref) (self : QuadTree) (fuel1 : ℕ),
      g[this]? = some self → self.points._array = .undefined →
      ∃ g1, QuadTree.divide fuel1 g this = some (g1, .typeError) := by
  obtain rfl := reachable_eq_fresh hr
  exact ⟨getPoints_fresh bounds opts fuel, insert_fresh bounds opts q [] fuel,
    fun g this self fuel1 hs ha => divideWith_throws g this self _ hs ha⟩

/-- Failing input of C1: on `new QuadTree(new Rect(0, 0, 10, 10))` the call
`insert(new Point(1, 1))` of a point inside the bounds throws and stores nothing. -/
theorem insert_throws_and_stores_nothing_witness :
    Reachable ⟨0, 0, 10, 10⟩ none (QuadTree.fresh ⟨0, 0, 10, 10⟩ none) ∧
    Rect.contains ⟨0, 0, 10, 10⟩ { ref := 1, x := 1, y := 1 } = true ∧
    QuadTree.getPoints 1 (QuadTree.fresh ⟨0, 0, 10, 10⟩ none) root = some [] ∧
    QuadTree.insert 1 (QuadTree.fresh ⟨0, 0, 10, 10⟩ none) root [{ ref := 1, x := 1, y := 1 }] =
      some (QuadTree.fresh ⟨0, 0, 10, 10⟩ none, .typeError) :=
  ⟨Reachable.construct,
   by norm_num [Rect.contains, Rect.left, Rect.right, Rect.top, Rect.bottom],
   (insert_throws_and_stores_nothing ⟨0, 0, 10, 10⟩ none _ Reachable.construct
      { ref := 1, x := 1, y := 1 } 0).1,
   (insert_throws_and_stores_nothing ⟨0, 0, 10, 10⟩ none _ Reachable.construct
      { ref := 1, x := 1, y := 1 } 0).2.1⟩

/-- C2 (containment after a successful insert) is not delivered by the code: on every
reachable tree no call of `insert` ever returns `true`, whatever the points and the fuel.
`insert(p)` throws a TypeError, `getPoints()` afterwards is still empty, so it does not
contain `p`, and `query(R)` with `R` the bounds passed to the constructor throws as well. -/
theorem insert_never_returns_true (bounds : Rect) (opts : Option OptsArg) (h : Heap)
    (hr : Reachable bounds opts h) (p : Point) (fuel : ℕ) :
    (∀ (fuel1 : ℕ) (points : List Point) (h1 : Heap),
      QuadTree.insert fuel1 h root points ≠ some (h1, .normal true)) ∧
    QuadTree.insert (fuel + 1) h root [p] = some (h, .typeError) ∧
    QuadTree.getPoints (fuel + 1) h root = some [] ∧
    QuadTree.query (fuel + 1) h root (.rect bounds) = some .typeError := by
  obtain rfl := reachable_eq_fresh hr
  refine ⟨fun fuel1 points h1 hc => ?_, insert_fresh bounds opts p [] fuel,
    getPoints_fresh bounds opts fuel, query_fresh bounds opts _ fuel⟩
  exact (insert_fresh_heap bounds opts fuel1 points h1 _ hc).2.1 rfl

/-- Failing input of C2: `new QuadTree(new Rect(0, 0, 10, 10))`, then
`insert(new Point(1, 1))`, `getPoints()` and `query(new Rect(0, 0, 10, 10))`. -/
theorem insert_never_returns_true_witness :
    Reachable ⟨0, 0, 10, 10⟩ none (QuadTree.fresh ⟨0, 0, 10, 10⟩ none) ∧
    Rect.contains ⟨0, 0, 10, 10⟩ { ref := 1, x := 1, y := 1 } = true ∧
    QuadTree.insert 1 (QuadTree.fresh ⟨0, 0, 10, 10⟩ none) root [{ ref := 1, x := 1, y := 1 }] =
      some (QuadTree.fresh ⟨0, 0, 10, 10⟩ none, .typeError) ∧
    QuadTree.getPoints 1 (QuadTree.fresh ⟨0, 0, 10, 10⟩ none) root = some [] ∧
    QuadTree.query 1 (QuadTree.fresh ⟨0, 0, 10, 10⟩ none) root (.rect ⟨0, 0, 10, 10⟩) =
      some .typeError :=
  ⟨Reachable.construct,
   by norm_num [Rect.contains, Rect.left, Rect.right, Rect.top, Rect.bottom],
   (insert_never_returns_true ⟨0, 0, 10, 10⟩ none _ Reachable.construct
      { ref := 1, x := 1, y := 1 } 0).2⟩

/-- C3 (a range query is a filter of the stored points) does not hold of the code: on every
reachable tree `getPoints()` returns the empty list, whose filter is the empty list, but
`query(range)` throws a TypeError for every rectangle and every circle, because
`range.intersects(this.bounds)` is called with `undefined`. -/
theorem query_throws (bounds : Rect) (opts : Option OptsArg) (h : Heap)
    (hr : Reachable bounds opts h) (range : Shape) (fuel : ℕ) :
    QuadTree.getPoints (fuel + 1) h root = some [] ∧
    QuadTree.query (fuel + 1) h root range = some .typeError ∧
    QuadTree.query (fuel + 1) h root range ≠
      some (.normal (([] : List Point).filter fun point => range.contains point)) := by
  obtain rfl := reachable_eq_fresh hr
  refine ⟨getPoints_fresh bounds opts fuel, query_fresh bounds opts range fuel, ?_⟩
  rw [query_fresh]
  simp

/-- Failing input of C3: `new QuadTree(new Rect(0, 0, 10, 10))`, then
`query(new Rect(0, 0, 10, 10))`. -/
theorem query_throws_witness :
    Reachable ⟨0, 0, 10, 10⟩ none (QuadTree.fresh ⟨0, 0, 10, 10⟩ none) ∧
    QuadTree.getPoints 1 (QuadTree.fresh ⟨0, 0, 10, 10⟩ none) root = some [] ∧
    QuadTree.query 1 (QuadTree.fresh ⟨0, 0, 10, 10⟩ none) root (.rect ⟨0, 0, 10, 10⟩) =
      some .typeError :=
  ⟨Reachable.construct,
   (query_throws ⟨0, 0, 10, 10⟩ none _ Reachable.construct (.rect ⟨0, 0, 10, 10⟩) 0).1,
   (query_throws ⟨0, 0, 10, 10⟩ none _ Reachable.construct (.rect ⟨0, 0, 10, 10⟩) 0).2.1⟩

/-- C4 (insert then remove is a round trip of two `true` results) does not hold of the code:
on every reachable tree both `insert(p)` and the following `remove(p)` throw a TypeError, and
neither call ever returns `true`. -/
theorem insert_then_remove_throw (bounds : Rect) (opts : Option OptsArg) (h : Heap)
    (hr : Reachable bounds opts h) (p : Point) (fuel : ℕ) :
    QuadTree.insert (fuel + 1) h root [p] = some (h, .typeError) ∧
    QuadTree.remove (fuel + 1) h root [p] = some (h, .typeError) ∧
    (∀ (fuel1 : ℕ) (h1 : Heap),
      QuadTree.insert fuel1 h root [p] ≠ some (h1, .normal true)) ∧
    (∀ (fuel1 : ℕ) (h1 : Heap),
      QuadTree.remove fuel1 h root [p] ≠ some (h1, .normal true)) := by
  obtain rfl := reachable_eq_fresh hr
  exact ⟨insert_fresh bounds opts p [] fuel, remove_fresh bounds opts p [] fuel,
    fun fuel1 h1 hc => (insert_fresh_heap bounds opts fuel1 [p] h1 _ hc).2.1 rfl,
    fun fuel1 h1 hc => (remove_fresh_heap bounds opts fuel1 [p] h1 _ hc).2.1 rfl⟩

/-- Failing input of C4: `new QuadTree(new Rect(0, 0, 10, 10))`, then
`insert(p)` and `remove(p)` for `p = new Point(1, 1)`, which lies inside the bounds. -/
theorem insert_then_remove_throw_witness :
    Reachable ⟨0, 0, 10, 10⟩ none (QuadTree.fresh ⟨0, 0, 10, 10⟩ none) ∧
    Rect.contains ⟨0, 0, 10, 10⟩ { ref := 1, x := 1, y := 1 } = true ∧
    QuadTree.insert 1 (QuadTree.fresh ⟨0, 0, 10, 10⟩ none) root [{ ref := 1, x := 1, y := 1 }] =
      some (QuadTree.fresh ⟨0, 0, 10, 10⟩ none, .typeError) ∧
    QuadTree.remove 1 (QuadTree.fresh ⟨0, 0, 10, 10⟩ none) root [{ ref := 1, x := 1, y := 1 }] =
      some (QuadTree.fresh ⟨0, 0, 10, 10⟩ none, .typeError) :=
  ⟨Reachable.construct,
   by norm_num [Rect.contains, Rect.left, Rect.right, Rect.top, Rect.bottom],
   (insert_then_remove_throw ⟨0, 0, 10, 10⟩ none _ Reachable.construct
      { ref := 1, x := 1, y := 1 } 0).1,
   (insert_then_remove_throw ⟨0, 0, 10, 10⟩ none _ Reachable.construct
      { ref := 1, x := 1, y := 1 } 0).2.1⟩

/-- C5 (a point outside the root bounds is rejected with `false`) does not hold of the code:
on every reachable tree `insert(p)` throws a TypeError instead of returning `false`, and it
never returns any value for a point. The tree is left unchanged, as the claim says. -/
theorem insert_throws_instead_of_false (bounds : Rect) (opts : Option OptsArg) (h : Heap)
    (hr : Reachable bounds opts h) (p : Point) (fuel : ℕ) :
    QuadTree.insert (fuel + 1) h root [p] = some (h, .typeError) ∧
    (∀ (fuel1 : ℕ) (h1 : Heap) (r : Bool),
      QuadTree.insert fuel1 h root [p] ≠ some (h1, .normal r)) ∧
    (∀ (fuel1 : ℕ) (h1 : Heap) (c : Completion Bool),
      QuadTree.insert fuel1 h root [p] = some (h1, c) → h1 = h) := by
  obtain rfl := reachable_eq_fresh hr
  refine ⟨insert_fresh bounds opts p [] fuel, fun fuel1 h1 r hc => ?_,
    fun fuel1 h1 c hc => (insert_fresh_heap bounds opts fuel1 [p] h1 c hc).1⟩
  have := (insert_fresh_heap bounds opts fuel1 [p] h1 _ hc).2.2 (by simp)
  cases this

/-- Failing input of C5: `new QuadTree(new Rect(0, 0, 10, 10))`, then
`insert(new Point(20, 20))`, a point outside the bounds. -/
theorem insert_throws_instead_of_false_witness :
    Reachable ⟨0, 0, 10, 10⟩ none (QuadTree.fresh ⟨0, 0, 10, 10⟩ none) ∧
    Rect.contains ⟨0, 0, 10, 10⟩ { ref := 1, x := 20, y := 20 } = false ∧
    QuadTree.insert 1 (QuadTree.fresh ⟨0, 0, 10, 10⟩ none) root
        [{ ref := 1, x := 20, y := 20 }] =
      some (QuadTree.fresh ⟨0, 0, 10, 10⟩ none, .typeError) :=
  ⟨Reachable.construct,
   by norm_num [Rect.contains, Rect.left, Rect.right, Rect.top, Rect.bottom],
   (insert_throws_instead_of_false ⟨0, 0, 10, 10⟩ none _ Reachable.construct
      { ref := 1, x := 20, y := 20 } 0).1⟩

/-- C6 (removal and collapse) does not hold of the code. On every tree reachable with
`removeEmptyNodes = true` the root has no children and `getPoints()` is empty, yet `getTree()`
does not report `{divided: false, points: []}`: it throws a TypeError, at any fuel, because
`this.points.array()` reads `length` of an `_array` that was never assigned. `remove(p)`
throws as well, so no sequence of removals can be carried out at all. -/
theorem getTree_throws_on_empty_tree (bounds : Rect) (opts : Option OptsArg) (h : Heap)
    (hr : Reachable bounds opts h)
    (he : (spreadOpts defaultQuadtreeOpts opts).removeEmptyNodes = true)
    (p : Point) (fuel : ℕ) :
    (∃ n : QuadTree, h[root]? = some n ∧ n.opts.removeEmptyNodes = true ∧ n.nodes.size = 0) ∧
    QuadTree.getPoints (fuel + 1) h root = some [] ∧
    QuadTree.getTree (fuel + 1) h root = some (h, .typeError) ∧
    (∀ (fuel1 : ℕ) (h1 : Heap) (t : Tree),
      QuadTree.getTree fuel1 h root ≠ some (h1, .normal t)) ∧
    QuadTree.remove (fuel + 1) h root [p] = some (h, .typeError) := by
  obtain rfl := reachable_eq_fresh hr
  refine ⟨⟨_, fresh_root bounds opts, he, rfl⟩, getPoints_fresh bounds opts fuel,
    getTree_fresh bounds opts fuel, fun fuel1 h1 t hc => ?_, remove_fresh bounds opts p [] fuel⟩
  cases fuel1 with
  | zero => simp [QuadTree.getTree] at hc
  | succ n =>
    rw [getTree_fresh] at hc
    simp at hc

/-- Failing input of C6: `new QuadTree(new Rect(0, 0, 10, 10), {removeEmptyNodes: true})`,
which stores no point, then `getTree()`. -/
theorem getTree_throws_on_empty_tree_witness :
    Reachable ⟨0, 0, 10, 10⟩ (some ⟨none, none, some true⟩)
      (QuadTree.fresh ⟨0, 0, 10, 10⟩ (some ⟨none, none, some true⟩)) ∧
    (spreadOpts defaultQuadtreeOpts (some ⟨none, none, some true⟩)).removeEmptyNodes = true ∧
    QuadTree.getPoints 1 (QuadTree.fresh ⟨0, 0, 10, 10⟩ (some ⟨none, none, some true⟩)) root =
      some [] ∧
    QuadTree.getTree 1 (QuadTree.fresh ⟨0, 0, 10, 10⟩ (some ⟨none, none, some true⟩)) root =
      some (QuadTree.fresh ⟨0, 0, 10, 10⟩ (some ⟨none, none, some true⟩), .typeError) :=
  ⟨Reachable.construct, rfl,
   (getTree_throws_on_empty_tree ⟨0, 0, 10, 10⟩ (some ⟨none, none, some true⟩) _
      Reachable.construct rfl { ref := 1, x := 1, y := 1 } 0).2.1,
   (getTree_throws_on_empty_tree ⟨0, 0, 10, 10⟩ (some ⟨none, none, some true⟩) _
      Reachable.construct rfl { ref := 1, x := 1, y := 1 } 0).2.2.1⟩

/-- C7 (remove reports whether a match exists) does not hold of the code: on every reachable
tree `getPoints()` is empty, so no stored point matches `p` and the claim has `remove(p)`
return `false`; the code throws a TypeError instead and never returns a value for a
point. -/
theorem remove_throws_instead_of_false (bounds : Rect) (opts : Option OptsArg) (h : Heap)
    (hr : Reachable bounds opts h) (p : Point) (fuel : ℕ) :
    QuadTree.getPoints (fuel + 1) h root = some [] ∧
    QuadTree.remove (fuel + 1) h root [p] = some (h, .typeError) ∧
    (∀ (fuel1 : ℕ) (h1 : Heap) (r : Bool),
      QuadTree.remove fuel1 h root [p] ≠ some (h1, .normal r)) := by
  obtain rfl := reachable_eq_fresh hr
  refine ⟨getPoints_fresh bounds opts fuel, remove_fresh bounds opts p [] fuel,
    fun fuel1 h1 r hc => ?_⟩
  have := (remove_fresh_heap bounds opts fuel1 [p] h1 _ hc).2.2 (by simp)
  cases this

/-- Failing input of C7: `new QuadTree(new Rect(0, 0, 10, 10))`, then
`remove(new Point(1, 1))`. -/
theorem remove_throws_instead_of_false_witness :
    Reachable ⟨0, 0, 10, 10⟩ none (QuadTree.fresh ⟨0, 0, 10, 10⟩ none) ∧
    QuadTree.getPoints 1 (QuadTree.fresh ⟨0, 0, 10, 10⟩ none) root = some [] ∧
    QuadTree.remove 1 (QuadTree.fresh ⟨0, 0, 10, 10⟩ none) root [{ ref := 1, x := 1, y := 1 }] =
      some (QuadTree.fresh ⟨0, 0, 10, 10⟩ none, .typeError) :=
  ⟨Reachable.construct,
   (remove_throws_instead_of_false ⟨0, 0, 10, 10⟩ none _ Reachable.construct
      { ref := 1, x := 1, y := 1 } 0).1,
   (remove_throws_instead_of_false ⟨0, 0, 10, 10⟩ none _ Reachable.construct
      { ref := 1, x := 1, y := 1 } 0).2.1⟩

/-- C8 (depth ceiling) is not delivered by the code. For a tree constructed with
`maxDepth = d ≥ 0` the root carries `maxDepth = d` in every reachable state, but `insert(p)`
throws a TypeError at `this.bounds.contains(point)` whatever `d` is and never returns a
value. So with `maxDepth = 0` no point lands in the root leaf: the root keeps no points,
`getPoints()` stays empty, and no object exists below the root at any depth. The two
mechanisms the claim names do hold of the methods on any heap: the four objects `divide()`
creates carry `maxDepth` one less than their parent (`-1` kept), and `insertRecursive` on an
undivided node with `maxDepth` 0 creates no object, leaves the node undivided and puts a
point it accepts into the node's own `points`. -/
theorem depth_ceiling_insert_throws (bounds : Rect) (opts : Option OptsArg) (h : Heap)
    (hr : Reachable bounds opts h) (d : ℕ)
    (hd : (spreadOpts defaultQuadtreeOpts opts).maxDepth = d) (p : Point) (fuel : ℕ) :
    (∃ n : QuadTree, h[root]? = some n ∧ n.opts.maxDepth = d ∧ n.nodes.size = 0 ∧
      n.points.size = 0) ∧
    QuadTree.insert (fuel + 1) h root [p] = some (h, .typeError) ∧
    (∀ (fuel1 : ℕ) (h1 : Heap) (r : Bool),
      QuadTree.insert fuel1 h root [p] ≠ some (h1, .normal r)) ∧
    QuadTree.getPoints (fuel + 1) h root = some [] ∧
    (∀ k : ℕ, QuadTree.nodesAtDepth h (k + 1) = []) ∧
    (∀ (g : Heap) (this : Ref) (self : QuadTree) (fuel1 : ℕ) (g1 : Heap) (c : Completion Unit),
      g[this]? = some self → self.bounds ≠ none → QuadTree.divide fuel1 g this = some (g1, c) →
      ∀ i, i < 4 → ∃ child : QuadTree, g1[g.length + i]? = some child ∧
        child.opts.maxDepth =
          (if self.opts.maxDepth = -1 then -1 else self.opts.maxDepth - 1)) ∧
    (∀ (g : Heap) (this : Ref) (self : QuadTree) (q : Point) (fuel1 : ℕ) (g1 : Heap)
        (c : Completion Bool),
      g[this]? = some self → self.opts.maxDepth = 0 → self.nodes.size = 0 →
      QuadTree.insertRecursive fuel1 g this q = some (g1, c) →
      g1.length = g.length ∧ ∃ self1 : QuadTree, g1[this]? = some self1 ∧
        self1.nodes.size = 0 ∧ (c = .normal true → q ∈ self1.points.values)) := by
  obtain rfl := reachable_eq_fresh hr
  refine ⟨⟨_, fresh_root bounds opts, hd, rfl, rfl⟩, insert_fresh bounds opts p [] fuel,
    fun fuel1 h1 r hc => ?_, getPoints_fresh bounds opts fuel,
    nodesAtDepth_fresh bounds opts,
    fun g this self fuel1 g1 c hs hb hc =>
      (divideWith_keeps (insertRecursive_keeps fuel1) g this self g1 c hs hc).2 hb,
    fun g this self q fuel1 g1 c hs hd0 hn hc =>
      insertRecursive_maxDepth_zero g this self q fuel1 g1 c hs hd0 hn hc⟩
  have := (insert_fresh_heap bounds opts fuel1 [p] h1 _ hc).2.2 (by simp)
  cases this

/-- Failing input of C8: `new QuadTree(new Rect(0, 0, 10, 10), {maxDepth: 0})`, then
`insert(new Point(1, 1))`, a point inside the bounds, and `getPoints()`. -/
theorem depth_ceiling_insert_throws_witness :
    Reachable ⟨0, 0, 10, 10⟩ (some ⟨some 0, none, none⟩)
      (QuadTree.fresh ⟨0, 0, 10, 10⟩ (some ⟨some 0, none, none⟩)) ∧
    (spreadOpts defaultQuadtreeOpts (some ⟨some 0, none, none⟩)).maxDepth = ((0 : ℕ) : ℤ) ∧
    Rect.contains ⟨0, 0, 10, 10⟩ { ref := 1, x := 1, y := 1 } = true ∧
    QuadTree.insert 1 (QuadTree.fresh ⟨0, 0, 10, 10⟩ (some ⟨some 0, none, none⟩)) root
        [{ ref := 1, x := 1, y := 1 }] =
      some (QuadTree.fresh ⟨0, 0, 10, 10⟩ (some ⟨some 0, none, none⟩), .typeError) ∧
    QuadTree.getPoints 1 (QuadTree.fresh ⟨0, 0, 10, 10⟩ (some ⟨some 0, none, none⟩)) root =
      some [] :=
  have h := depth_ceiling_insert_throws ⟨0, 0, 10, 10⟩ (some ⟨some 0, none, none⟩) _
    Reachable.construct 0 rfl { ref := 1, x := 1, y := 1 } 0
  ⟨Reachable.construct, rfl,
   by norm_num [Rect.contains, Rect.left, Rect.right, Rect.top, Rect.bottom],
   h.2.1, h.2.2.2.1⟩

/-- C9 (capacity trigger) does not hold of the code: on every reachable tree, whatever
`maxPointsPerNode` is, `insert` of one or more points throws a TypeError on the first of
them, the root stays an undivided node without points, `getPoints()` stays empty and
`getTree()` throws a TypeError instead of reporting `divided: true`. -/
theorem capacity_trigger_throws (bounds : Rect) (opts : Option OptsArg) (h : Heap)
    (hr : Reachable bounds opts h) (p : Point) (ps : List Point) (fuel : ℕ) :
    QuadTree.insert (fuel + 1) h root (p :: ps) = some (h, .typeError) ∧
    (∃ n : QuadTree, h[root]? = some n ∧ n.nodes.size = 0 ∧ n.points.size = 0) ∧
    QuadTree.getPoints (fuel + 1) h root = some [] ∧
    QuadTree.getTree (fuel + 1) h root = some (h, .typeError) := by
  obtain rfl := reachable_eq_fresh hr
  exact ⟨insert_fresh bounds opts p ps fuel, ⟨_, fresh_root bounds opts, rfl, rfl⟩,
    getPoints_fresh bounds opts fuel, getTree_fresh bounds opts fuel⟩

/-- Failing input of C9: `new QuadTree(new Rect(0, 0, 10, 10), {maxPointsPerNode: 1})`,
then `insert(new Point(1, 1))`, `insert(new Point(2, 2))`, `getPoints()` and `getTree()`:
the second insert is evaluated in the state the first one leaves. -/
theorem capacity_trigger_throws_witness :
    Reachable ⟨0, 0, 10, 10⟩ (some ⟨none, some 1, none⟩)
      (QuadTree.fresh ⟨0, 0, 10, 10⟩ (some ⟨none, some 1, none⟩)) ∧
    QuadTree.insert 1 (QuadTree.fresh ⟨0, 0, 10, 10⟩ (some ⟨none, some 1, none⟩)) root
        [{ ref := 1, x := 1, y := 1 }] =
      some (QuadTree.fresh ⟨0, 0, 10, 10⟩ (some ⟨none, some 1, none⟩), .typeError) ∧
    QuadTree.insert 1 (QuadTree.fresh ⟨0, 0, 10, 10⟩ (some ⟨none, some 1, none⟩)) root
        [{ ref := 2, x := 2, y := 2 }] =
      some (QuadTree.fresh ⟨0, 0, 10, 10⟩ (some ⟨none, some 1, none⟩), .typeError) ∧
    QuadTree.getPoints 1 (QuadTree.fresh ⟨0, 0, 10, 10⟩ (some ⟨none, some 1, none⟩)) root =
      some [] ∧
    QuadTree.getTree 1 (QuadTree.fresh ⟨0, 0, 10, 10⟩ (some ⟨none, some 1, none⟩)) root =
      some (QuadTree.fresh ⟨0, 0, 10, 10⟩ (some ⟨none, some 1, none⟩), .typeError) :=
  ⟨Reachable.construct,
   (capacity_trigger_throws ⟨0, 0, 10, 10⟩ (some ⟨none, some 1, none⟩) _ Reachable.construct
      { ref := 1, x := 1, y := 1 } [] 0).1,
   (capacity_trigger_throws ⟨0, 0, 10, 10⟩ (some ⟨none, some 1, none⟩) _
      (Reachable.insert 1 [{ ref := 1, x := 1, y := 1 }] Reachable.construct
        (insert_fresh ⟨0, 0, 10, 10⟩ (some ⟨none, some 1, none⟩) { ref := 1, x := 1, y := 1 }
          [] 0))
      { ref := 2, x := 2, y := 2 } [] 0).1,
   (capacity_trigger_throws ⟨0, 0, 10, 10⟩ (some ⟨none, some 1, none⟩) _ Reachable.construct
      { ref := 1, x := 1, y := 1 } [] 0).2.2⟩

/-- C10 (construction) does not hold of the code. `new QuadTree(bounds, opts)` creates an
object whose options are the defaults overridden field by field by `opts`, whose `points`
and `nodes` are empty, and for which `getPoints()` returns `[]`, as the claim says; but the
object has no `bounds` at all, whatever rectangle is passed, and `getTree()` throws a
TypeError instead of returning `{divided: false, points: []}`, because `array()` of a newly
constructed `Superset` throws. -/
theorem constructor_drops_bounds (g : Heap) (bounds : Rect) (opts : Option OptsArg)
    (fuel : ℕ) :
    QuadTree.constructor g bounds opts =
      (g ++ [{ bounds := none,
               opts := spreadOpts defaultQuadtreeOpts opts,
               points := { values := [], _array := .undefined },
               nodes := { values := [], _array := .undefined } }], g.length) ∧
    (∀ n : QuadTree, (QuadTree.fresh bounds opts)[root]? = some n →
      n.bounds ≠ some bounds ∧ n.opts = spreadOpts defaultQuadtreeOpts opts) ∧
    spreadOpts defaultQuadtreeOpts none =
      { maxDepth := -1, maxPointsPerNode := 4, removeEmptyNodes := false } ∧
    QuadTree.getPoints (fuel + 1) (QuadTree.fresh bounds opts) root = some [] ∧
    QuadTree.getTree (fuel + 1) (QuadTree.fresh bounds opts) root =
      some (QuadTree.fresh bounds opts, .typeError) ∧
    (Superset.constructor : Superset Point).array = .typeError := by
  refine ⟨rfl, fun n hn => ?_, rfl, getPoints_fresh bounds opts fuel,
    getTree_fresh bounds opts fuel, rfl⟩
  rw [fresh_root] at hn
  cases hn
  exact ⟨by simp, rfl⟩

/-- Failing input of C10: `new QuadTree(new Rect(0, 0, 10, 10), {maxDepth: 3})`, then
`getTree()`. -/
theorem constructor_drops_bounds_witness :
    (QuadTree.fresh ⟨0, 0, 10, 10⟩ (some ⟨some 3, none, none⟩))[root]? =
      some { bounds := none,
             opts := { maxDepth := 3, maxPointsPerNode := 4, removeEmptyNodes := false },
             points := { values := [], _array := .undefined },
             nodes := { values := [], _array := .undefined } } ∧
    QuadTree.getTree 1 (QuadTree.fresh ⟨0, 0, 10, 10⟩ (some ⟨some 3, none, none⟩)) root =
      some (QuadTree.fresh ⟨0, 0, 10, 10⟩ (some ⟨some 3, none, none⟩), .typeError) :=
  ⟨rfl, (constructor_drops_bounds [] ⟨0, 0, 10, 10⟩ (some ⟨some 3, none, none⟩) 0).2.2.2.2.1⟩

/-! ## Geometry lemmas -/

theorem rect_contains_iff (r : Rect) (p : Point) :
    r.contains p = true ↔
      r.x - r.width / 2 ≤ p.x ∧ p.x ≤ r.x + r.width / 2 ∧
      r.y - r.height / 2 ≤ p.y ∧ p.y ≤ r.y + r.height / 2 := by
  simp only [Rect.contains, Rect.left, Rect.right, Rect.top, Rect.bottom, Bool.and_eq_true,
    decide_eq_true_eq, ge_iff_le]
  tauto

theorem rect_intersects_iff_edges (a b : Rect) :
    a.intersects b = true ↔
      b.x - b.width / 2 ≤ a.x + a.width / 2 ∧ a.x - a.width / 2 ≤ b.x + b.width / 2 ∧
      b.y - b.height / 2 ≤ a.y + a.height / 2 ∧ a.y - a.height / 2 ≤ b.y + b.height / 2 := by
  simp only [Rect.intersects, Rect.left, Rect.right, Rect.top, Rect.bottom, Bool.not_eq_true',
    Bool.or_eq_false_iff, decide_eq_false_iff_not, not_lt, gt_iff_lt]
  tauto

/-- On one axis: an interval of half-width `w ≥ 0` around `rx` has a point whose distance to
`cx` is `max (|rx - cx| - w) 0`. -/
theorem exists_nearest (rx cx w : ℚ) (hw : 0 ≤ w) :
    ∃ px : ℚ, rx - w ≤ px ∧ px ≤ rx + w ∧
      (px - cx) * (px - cx) = max (|rx - cx| - w) 0 * max (|rx - cx| - w) 0 := by
  by_cases h : |rx - cx| ≤ w
  · refine ⟨cx, ?_, ?_, ?_⟩
    · have := (abs_le.mp h).2
      linarith
    · have := (abs_le.mp h).1
      linarith
    · rw [max_eq_right (by linarith)]
      ring
  · have h' : w < |rx - cx| := not_le.mp h
    rw [max_eq_left (by linarith)]
    rcases le_total 0 (rx - cx) with hs | hs
    · rw [abs_of_nonneg hs] at h' ⊢
      exact ⟨rx - w, le_refl _, by linarith, by ring⟩
    · rw [abs_of_nonpos hs] at h' ⊢
      exact ⟨rx + w, by linarith, le_refl _, by ring⟩

/-- On one axis: no point of the interval is nearer to `cx` than `max (|rx - cx| - w) 0`. -/
theorem nearest_le (rx cx w px : ℚ) (h1 : rx - w ≤ px) (h2 : px ≤ rx + w) :
    max (|rx - cx| - w) 0 * max (|rx - cx| - w) 0 ≤ (px - cx) * (px - cx) := by
  have hm : max (|rx - cx| - w) 0 ≤ |px - cx| := by
    refine max_le ?_ (abs_nonneg _)
    have h3 : |rx - cx| ≤ |rx - px| + |px - cx| := abs_sub_le rx px cx
    have h4 : |rx - px| ≤ w := abs_le.mpr ⟨by linarith, by linarith⟩
    linarith
  have h0 : 0 ≤ max (|rx - cx| - w) 0 := le_max_right _ _
  calc max (|rx - cx| - w) 0 * max (|rx - cx| - w) 0
      ≤ |px - cx| * |px - cx| := mul_le_mul hm hm h0 (abs_nonneg _)
    _ = (px - cx) * (px - cx) := abs_mul_abs_self _

theorem circle_intersects_eq_closestPointTest (c : Circle) (r : Rect) (hr : 0 ≤ c.radius) :
    c.intersects r = c.closestPointTest r := by
  simp only [Circle.intersects, Circle.closestPointTest]
  generalize |r.x - c.x| = X
  generalize |r.y - c.y| = Y
  generalize r.width / 2 = w
  generalize r.height / 2 = h
  generalize hR : c.radius = R at hr
  have hmx : 0 ≤ max (X - w) 0 := le_max_right _ _
  have hmy : 0 ≤ max (Y - h) 0 := le_max_right _ _
  split_ifs with h1 h2 h3 h4
  · have : max (X - w) 0 = X - w := max_eq_left (by linarith)
    rw [this]
    symm
    rw [decide_eq_false_iff_not, not_le]
    nlinarith [mul_nonneg hmy hmy]
  · have : max (Y - h) 0 = Y - h := max_eq_left (by linarith)
    rw [this]
    symm
    rw [decide_eq_false_iff_not, not_le]
    nlinarith [mul_nonneg hmx hmx]
  · have : max (X - w) 0 = 0 := max_eq_right (by linarith)
    rw [this]
    symm
    rw [decide_eq_true_eq]
    have hy : max (Y - h) 0 ≤ R := max_le (by linarith) hr
    nlinarith
  · have : max (Y - h) 0 = 0 := max_eq_right (by linarith)
    rw [this]
    symm
    rw [decide_eq_true_eq]
    have hx : max (X - w) 0 ≤ R := max_le (by linarith) hr
    nlinarith
  · rw [max_eq_left (by linarith), max_eq_left (by linarith)]

theorem closestPointTest_iff_common_point (c : Circle) (r : Rect) (hw : 0 ≤ r.width)
    (hh : 0 ≤ r.height) :
    c.closestPointTest r = true ↔ ∃ p : Point, c.contains p = true ∧ r.contains p = true := by
  simp only [Circle.closestPointTest, Circle.contains, decide_eq_true_eq, rect_contains_iff]
  constructor
  · intro ht
    obtain ⟨px, x1, x2, ex⟩ := exists_nearest r.x c.x (r.width / 2) (by linarith)
    obtain ⟨py, y1, y2, ey⟩ := exists_nearest r.y c.y (r.height / 2) (by linarith)
    exact ⟨⟨0, px, py⟩, by simp only; rw [ex, ey]; exact ht, x1, x2, y1, y2⟩
  · rintro ⟨p, hc, x1, x2, y1, y2⟩
    have hx := nearest_le r.x c.x (r.width / 2) p.x x1 x2
    have hy := nearest_le r.y c.y (r.height / 2) p.y y1 y2
    linarith

/-! ## Properties of single objects kept by the methods, on any heap -/

theorem everyNode_write {P : QuadTree → Prop} {g : Heap} (hg : EveryNode P g) (this : Ref)
    {n1 : QuadTree} (h1 : P n1) : EveryNode P (g.write this n1) := by
  intro r n hn
  by_cases hr : this = r
  · subst hr
    by_cases hlt : this < g.length
    · simp only [Heap.write, List.getElem?_set_eq_of_lt _ hlt, Option.some.injEq] at hn
      exact hn ▸ h1
    · have hnone : (g.set this n1)[this]? = none :=
        List.getElem?_eq_none (by rw [List.length_set]; exact not_lt.mp hlt)
      rw [Heap.write, hnone] at hn
      cases hn
  · simp only [Heap.write, List.getElem?_set_ne hr] at hn
    exact hg r n hn

theorem everyNode_constructor {P : QuadTree → Prop} (hP : StableUnderInsert P) {g : Heap}
    (hg : EveryNode P g) (b : Rect) (o : Option OptsArg) :
    EveryNode P (QuadTree.constructor g b o).1 := by
  intro r n hn
  simp only [QuadTree.constructor] at hn
  by_cases hlt : r < g.length
  · rw [List.getElem?_append_left hlt] at hn
    exact hg r n hn
  · rw [List.getElem?_append_right (not_lt.mp hlt)] at hn
    cases hk : r - g.length with
    | zero =>
      rw [hk] at hn
      simp only [List.getElem?_cons_zero, Option.some.injEq] at hn
      exact hn ▸ hP.created _
    | succ k =>
      rw [hk] at hn
      simp at hn

theorem array_values {α : Type} (s s1 : Superset α) (arr : List α)
    (h : s.array = .normal (s1, arr)) : s1.values = s.values := by
  unfold Superset.array at h
  split at h
  · simp only [Completion.normal.injEq, Prod.mk.injEq] at h
    rw [← h.1]
  · cases h
  · split at h
    · simp only [Completion.normal.injEq, Prod.mk.injEq] at h
      rw [← h.1]
    · simp only [Completion.normal.injEq, Prod.mk.injEq] at h
      rw [← h.1]

theorem everyNode_insertIntoNodes {P : QuadTree → Prop}
    {rec : Heap → Ref → Point → Step Bool}
    (hrec : ∀ g r p g1 c, rec g r p = some (g1, c) → EveryNode P g → EveryNode P g1)
    (p : Point) :
    ∀ (refs : List Ref) (g g1 : Heap) (c : Completion Bool),
      QuadTree.insertIntoNodes rec p g refs = some (g1, c) → EveryNode P g →
      EveryNode P g1 := by
  intro refs
  induction refs with
  | nil =>
    intro g g1 c hc hg
    simp only [QuadTree.insertIntoNodes, Option.some.injEq, Prod.mk.injEq] at hc
    exact hc.1 ▸ hg
  | cons node rest ih =>
    intro g g1 c hc hg
    simp only [QuadTree.insertIntoNodes] at hc
    split at hc
    · cases hc
    · next h1 he =>
      simp only [Option.some.injEq, Prod.mk.injEq] at hc
      exact hc.1 ▸ hrec _ _ _ _ _ he hg
    · next h1 he =>
      simp only [Option.some.injEq, Prod.mk.injEq] at hc
      exact hc.1 ▸ hrec _ _ _ _ _ he hg
    · next h1 he =>
      exact ih _ _ _ hc (hrec _ _ _ _ _ he hg)

theorem everyNode_insertLoop {P : QuadTree → Prop}
    {rec : Heap → Ref → Point → Step Bool}
    (hrec : ∀ g r p g1 c, rec g r p = some (g1, c) → EveryNode P g → EveryNode P g1)
    (this : Ref) :
    ∀ (ps : List Point) (g g1 : Heap) (rv : Bool) (c : Completion Bool),
      QuadTree.insertLoop rec this g ps rv = some (g1, c) → EveryNode P g →
      EveryNode P g1 := by
  intro ps
  induction ps with
  | nil =>
    intro g g1 rv c hc hg
    simp only [QuadTree.insertLoop, Option.some.injEq, Prod.mk.injEq] at hc
    exact hc.1 ▸ hg
  | cons q rest ih =>
    intro g g1 rv c hc hg
    simp only [QuadTree.insertLoop] at hc
    split at hc
    · cases hc
    · next h1 he =>
      simp only [Option.some.injEq, Prod.mk.injEq] at hc
      exact hc.1 ▸ hrec _ _ _ _ _ he hg
    · next h1 r he =>
      exact ih _ _ _ _ hc (hrec _ _ _ _ _ he hg)

theorem everyNode_divideWith {P : QuadTree → Prop} (hP : StableUnderInsert P)
    {rec : Heap → Ref → Point → Step Bool}
    (hrec : ∀ g r p g1 c, rec g r p = some (g1, c) → EveryNode P g → EveryNode P g1)
    (g : Heap) (this : Ref) (self : QuadTree) (g1 : Heap) (c : Completion Unit)
    (hs : g[this]? = some self) (hn : self.nodes.size = 0)
    (hc : QuadTree.divideWith rec g this = some (g1, c)) (hg : EveryNode P g) :
    EveryNode P g1 := by
  cases hb : self.bounds with
  | none =>
    simp only [QuadTree.divideWith, hs, hb, Option.some.injEq, Prod.mk.injEq] at hc
    exact hc.1 ▸ hg
  | some b =>
    have hv : self.nodes.values = [] := List.length_eq_zero.mp hn
    simp only [QuadTree.divideWith, hs, hb] at hc
    generalize hN : @Superset.add Ref _ _ _ = N at hc
    have hsize : N.size = 4 := by
      rw [← hN]
      simp [Superset.add, Superset.size, QuadTree.constructor, hv]
    clear hN
    have hN1 : P { bounds := some b, opts := self.opts, points := self.points, nodes := N } := by
      rw [← hb]
      exact hP.divided self N (hg this self hs) hn hsize
    generalize hH : Heap.write _ this _ = H5 at hc
    have k5 : EveryNode P H5 := by
      rw [← hH]
      exact everyNode_write (everyNode_constructor hP (everyNode_constructor hP
        (everyNode_constructor hP (everyNode_constructor hP hg _ _) _ _) _ _) _ _) this hN1
    clear hH
    split at hc
    · simp only [Option.some.injEq, Prod.mk.injEq] at hc
      exact hc.1 ▸ k5
    · next points1 arr harr =>
      have hN2 : P { bounds := some b, opts := self.opts, points := points1, nodes := N } :=
        hP.cached _ points1 hN1 (array_values _ _ _ harr)
      have k6 := everyNode_write k5 this hN2
      split at hc
      · cases hc
      · next h7 he =>
        simp only [Option.some.injEq, Prod.mk.injEq] at hc
        exact hc.1 ▸ everyNode_insertLoop hrec _ _ _ _ _ _ he k6
      · next h7 v he =>
        have k7 := everyNode_insertLoop hrec _ _ _ _ _ _ he k6
        split at hc
        · cases hc
        · next self2 hs2 =>
          simp only [Option.some.injEq, Prod.mk.injEq] at hc
          exact hc.1 ▸ everyNode_write k7 this (hP.cleared self2 (k7 this self2 hs2))

theorem everyNode_insertRecursive {P : QuadTree → Prop} (hP : StableUnderInsert P)
    (fuel : ℕ) :
    ∀ g r p g1 c, QuadTree.insertRecursive fuel g r p = some (g1, c) → EveryNode P g →
      EveryNode P g1 := by
  induction fuel with
  | zero =>
    intro g r p g1 c hc
    simp [QuadTree.insertRecursive] at hc
  | succ n ih =>
    intro g this p g1 c hc hg
    simp only [QuadTree.insertRecursive, QuadTree.insertRecursiveStep] at hc
    split at hc
    · cases hc
    · next self hs =>
      have children : ∀ h1 g1 c,
          (match h1[this]? with
            | none => none
            | some self1 =>
              if self1.nodes.size > 0 then
                QuadTree.insertIntoNodes (QuadTree.insertRecursive n) p h1 self1.nodes.values
              else some (h1, Completion.normal false)) = some (g1, c) →
          EveryNode P h1 → EveryNode P g1 := by
        intro h1 g1 c hc hh
        split at hc
        · cases hc
        · split at hc
          · exact everyNode_insertIntoNodes ih p _ _ _ _ hc hh
          · simp only [Option.some.injEq, Prod.mk.injEq] at hc
            exact hc.1 ▸ hh
      split at hc
      · simp only [Option.some.injEq, Prod.mk.injEq] at hc
        exact hc.1 ▸ hg
      · simp only [Option.some.injEq, Prod.mk.injEq] at hc
        exact hc.1 ▸ hg
      · next hcc =>
        split at hc
        · next hn0 =>
          split at hc
          · simp only [Option.some.injEq, Prod.mk.injEq] at hc
            exact hc.1 ▸ everyNode_write hg this (hP.stored self p (hg this self hs) hn0 hcc)
          · split at hc
            · split at hc
              · cases hc
              · next h1 hd =>
                simp only [Option.some.injEq, Prod.mk.injEq] at hc
                exact hc.1 ▸ everyNode_divideWith hP ih _ _ _ _ _ hs hn0 hd hg
              · next h1 v hd =>
                exact children _ _ _ hc (everyNode_divideWith hP ih _ _ _ _ _ hs hn0 hd hg)
            · exact children _ _ _ (by rw [hs]; exact hc) hg
        · exact children _ _ _ (by rw [hs]; exact hc) hg

theorem everyNode_removeFromNodes {P : QuadTree → Prop}
    {rec : Heap → Ref → Point → Step Bool}
    (hrec : ∀ g r p g1 c, rec g r p = some (g1, c) → EveryNode P g → EveryNode P g1)
    (p : Point) :
    ∀ (refs : List Ref) (g g1 : Heap) (rv : Bool) (c : Completion Bool),
      QuadTree.removeFromNodes rec p g refs rv = some (g1, c) → EveryNode P g →
      EveryNode P g1 := by
  intro refs
  induction refs with
  | nil =>
    intro g g1 rv c hc hg
    simp only [QuadTree.removeFromNodes, Option.some.injEq, Prod.mk.injEq] at hc
    exact hc.1 ▸ hg
  | cons node rest ih =>
    intro g g1 rv c hc hg
    simp only [QuadTree.removeFromNodes] at hc
    split at hc
    · cases hc
    · next h1 he =>
      simp only [Option.some.injEq, Prod.mk.injEq] at hc
      exact hc.1 ▸ hrec _ _ _ _ _ he hg
    · next h1 r he =>
      exact ih _ _ _ _ hc (hrec _ _ _ _ _ he hg)

theorem everyNode_removeRecursive {P : QuadTree → Prop} (hP : StableUnderRemove P)
    (fuel : ℕ) :
    ∀ g r p g1 c, QuadTree.removeRecursive fuel g r p = some (g1, c) → EveryNode P g →
      EveryNode P g1 := by
  induction fuel with
  | zero =>
    intro g r p g1 c hc
    simp [QuadTree.removeRecursive] at hc
  | succ n ih =>
    intro g this p g1 c hc hg
    simp only [QuadTree.removeRecursive, QuadTree.removeRecursiveStep] at hc
    split at hc
    · cases hc
    · next self hs =>
      split at hc
      · simp only [Option.some.injEq, Prod.mk.injEq] at hc
        exact hc.1 ▸ hg
      · simp only [Option.some.injEq, Prod.mk.injEq] at hc
        exact hc.1 ▸ hg
      · split at hc
        · next hn0 =>
          split at hc
          · next q hq =>
            simp only [Option.some.injEq, Prod.mk.injEq] at hc
            exact hc.1 ▸ everyNode_write hg this (hP.deleted self q (hg this self hs) hn0)
          · simp only [Option.some.injEq, Prod.mk.injEq] at hc
            exact hc.1 ▸ hg
        · split at hc
          · cases hc
          · next h1 he =>
            simp only [Option.some.injEq, Prod.mk.injEq] at hc
            exact hc.1 ▸ everyNode_removeFromNodes ih p _ _ _ _ _ he hg
          · next h1 rv he =>
            have k1 := everyNode_removeFromNodes ih p _ _ _ _ _ he hg
            split at hc
            · cases hc
            · next self1 hs1 =>
              split at hc
              · split at hc
                · simp only [Option.some.injEq, Prod.mk.injEq] at hc
                  exact hc.1 ▸ everyNode_write k1 this (hP.collapsed self1 (k1 this self1 hs1))
                · simp only [Option.some.injEq, Prod.mk.injEq] at hc
                  exact hc.1 ▸ k1
              · simp only [Option.some.injEq, Prod.mk.injEq] at hc
                exact hc.1 ▸ k1

theorem pointsInside_stableUnderInsert : StableUnderInsert PointsInside where
  created := fun _ p hp => by simp [Superset.constructor] at hp
  stored := fun _ p hs _ hc q hq => by
    simp only [Superset.add] at hq
    split at hq
    · exact hs q hq
    · simp only [List.mem_append, List.mem_singleton] at hq
      rcases hq with hq | rfl
      · exact hs q hq
      · exact hc
  divided := fun _ _ hs _ _ => hs
  cached := fun _ _ hs hv q hq => hs q (hv ▸ hq)
  cleared := fun _ _ q hq => by simp [Superset.clear] at hq

theorem pointsInside_stableUnderRemove : StableUnderRemove PointsInside where
  deleted := fun _ _ hs _ p hp => hs p (List.mem_of_mem_erase hp)
  collapsed := fun _ hs => hs

theorem childCount_stableUnderInsert : StableUnderInsert ChildCount where
  created := fun _ => Or.inl rfl
  stored := fun _ _ hs _ _ => hs
  divided := fun _ _ _ _ h4 => Or.inr h4
  cached := fun _ _ hs _ => hs
  cleared := fun _ hs => hs

theorem childCount_stableUnderRemove : StableUnderRemove ChildCount where
  deleted := fun _ _ hs _ => hs
  collapsed := fun _ _ => Or.inl rfl

theorem exclusive_stableUnderRemove : StableUnderRemove Exclusive where
  deleted := fun _ _ _ hn h0 => by
    simp only [hn, lt_irrefl] at h0
  collapsed := fun _ _ h0 => by
    simp [Superset.clear, Superset.size] at h0

/-! ## Superset lemmas -/

theorem add_array {α : Type} [DecidableEq α] (s : Superset α) (v : α) :
    (s.add v)._array = s._array := by
  unfold Superset.add
  split <;> rfl

theorem constructorOf_array {α : Type} [DecidableEq α] (entries : List α) :
    (Superset.constructorOf entries)._array = .undefined := by
  unfold Superset.constructorOf
  suffices h : ∀ (s : Superset α), s._array = .undefined →
      (entries.foldl Superset.add s)._array = .undefined from h _ rfl
  induction entries with
  | nil => exact fun s hs => hs
  | cons e es ih => exact fun s hs => ih _ ((add_array s e).trans hs)

theorem afterCall_array {α : Type} [DecidableEq α] (s : Superset α) (call : SupersetCall α)
    (hs : s._array = .undefined) : (s.afterCall call)._array = .undefined := by
  cases call with
  | add v => exact (add_array s v).trans hs
  | delete v => exact hs
  | clear => exact hs
  | array => simp only [Superset.afterCall, Superset.array, hs]

theorem afterCalls_array {α : Type} [DecidableEq α] (calls : List (SupersetCall α)) :
    ∀ s : Superset α, s._array = .undefined → (s.afterCalls calls)._array = .undefined := by
  induction calls with
  | nil => exact fun s hs => hs
  | cons call rest ih => exact fun s hs => ih _ (afterCall_array s call hs)

theorem array_of_undefined {α : Type} (s : Superset α) (hs : s._array = .undefined) :
    s.array = .typeError := by
  simp only [Superset.array, hs]

/-! ## More facts about the fresh tree and about single methods -/

theorem insertRecursive_fresh (bounds : Rect) (opts : Option OptsArg) (p : Point) (fuel : ℕ) :
    QuadTree.insertRecursive (fuel + 1) (QuadTree.fresh bounds opts) root p =
      some (QuadTree.fresh bounds opts, .typeError) := rfl

theorem divide_fresh (bounds : Rect) (opts : Option OptsArg) (fuel : ℕ) :
    QuadTree.divide fuel (QuadTree.fresh bounds opts) root =
      some (QuadTree.fresh bounds opts, .typeError) := rfl

theorem fresh_getElem (bounds : Rect) (opts : Option OptsArg) (r : Ref) (n : QuadTree)
    (h : (QuadTree.fresh bounds opts)[r]? = some n) :
    r = root ∧ n = { bounds := none, opts := spreadOpts defaultQuadtreeOpts opts,
                     points := Superset.constructor, nodes := Superset.constructor } := by
  cases r with
  | zero =>
    have h0 := fresh_root bounds opts
    change (QuadTree.fresh bounds opts)[root]? = some n at h
    rw [h0] at h
    cases h
    exact ⟨rfl, rfl⟩
  | succ k => simp [QuadTree.fresh, QuadTree.constructor] at h

theorem getAllPoints_fresh (bounds : Rect) (opts : Option OptsArg) (fuel : ℕ)
    (pts : List Point)
    (h : QuadTree.getAllPointsRecursive fuel (QuadTree.fresh bounds opts) root = some pts) :
    pts = [] := by
  cases fuel with
  | zero => simp [QuadTree.getAllPointsRecursive] at h
  | succ k =>
    have := getPoints_fresh bounds opts k
    rw [QuadTree.getPoints, h] at this
    exact Option.some.inj this

/-- Method `getTree()` throws on any node whose two sets never had `_array` assigned. -/
theorem getTree_of_undefined (g : Heap) (this : Ref) (self : QuadTree) (fuel : ℕ)
    (hs : g[this]? = some self) (hp : self.points._array = .undefined)
    (hn : self.nodes._array = .undefined) :
    QuadTree.getTree (fuel + 1) g this = some (g, .typeError) := by
  simp only [QuadTree.getTree, hs, Superset.array, hp, hn]
  split <;> rfl

/-- One activation of `insertRecursive` completes on any undivided node whose `points` set
never had `_array` assigned: it throws, rejects, stores, or throws inside `divide()`. -/
theorem insertRecursive_one_activation (g : Heap) (this : Ref) (self : QuadTree) (q : Point)
    (fuel : ℕ) (hs : g[this]? = some self) (hn : self.nodes.size = 0)
    (ha : self.points._array = .undefined) :
    ∃ res, QuadTree.insertRecursive (fuel + 1) g this q = some res := by
  simp only [QuadTree.insertRecursive, QuadTree.insertRecursiveStep, hs]
  cases callContains self.bounds q with
  | typeError => exact ⟨_, rfl⟩
  | normal b =>
    cases b with
    | false => exact ⟨_, rfl⟩
    | true =>
      simp only [hn, if_true, gt_iff_lt, lt_irrefl, if_false]
      split
      · exact ⟨_, rfl⟩
      · split
        · obtain ⟨g1, hd⟩ := divideWith_throws g this self (QuadTree.insertRecursive fuel) hs ha
          rw [hd]
          exact ⟨_, rfl⟩
        · exact ⟨_, rfl⟩

/-- The four objects `divide()` creates have no `bounds` and no points, on any node that has
bounds itself and whose `points` set never had `_array` assigned. -/
theorem divideWith_children_bounds (g : Heap) (this : Ref) (self : QuadTree) (b : Rect)
    (insertRecursive : Heap → Ref → Point → Step Bool)
    (hs : g[this]? = some self) (hb : self.bounds = some b)
    (ha : self.points._array = .undefined) :
    ∃ g1, QuadTree.divideWith insertRecursive g this = some (g1, .typeError) ∧
      ∀ i, i < 4 → ∃ child : QuadTree, g1[g.length + i]? = some child ∧
        child.bounds = none ∧ child.points.size = 0 := by
  have hlt := getElem?_lt hs
  simp only [QuadTree.divideWith, hs, hb, QuadTree.constructor, Superset.array, ha]
  refine ⟨_, rfl, ?_⟩
  intro i hi
  have hne : this ≠ g.length + i :=
    Nat.ne_of_lt (Nat.lt_of_lt_of_le hlt (Nat.le_add_right _ _))
  simp only [Heap.write, List.append_assoc, List.singleton_append]
  rw [List.getElem?_set_ne hne, List.getElem?_append_right (Nat.le_add_right _ _),
    Nat.add_sub_cancel_left]
  interval_cases i <;> simp [Superset.constructor, Superset.size]

/-- The four rectangles `divide()` computes from `bounds` cover `bounds`. -/
theorem quadrants_cover (b : Rect) (q : Point) (hq : b.contains q = true) :
    Rect.contains ⟨b.x + b.width / 2 / 2, b.y - b.height / 2 / 2, b.width / 2, b.height / 2⟩
        q = true ∨
    Rect.contains ⟨b.x - b.width / 2 / 2, b.y - b.height / 2 / 2, b.width / 2, b.height / 2⟩
        q = true ∨
    Rect.contains ⟨b.x + b.width / 2 / 2, b.y + b.height / 2 / 2, b.width / 2, b.height / 2⟩
        q = true ∨
    Rect.contains ⟨b.x - b.width / 2 / 2, b.y + b.height / 2 / 2, b.width / 2, b.height / 2⟩
        q = true := by
  simp only [rect_contains_iff] at hq ⊢
  obtain ⟨h1, h2, h3, h4⟩ := hq
  rcases le_total b.x q.x with hx | hx <;> rcases le_total q.y b.y with hy | hy
  · exact Or.inl ⟨by linarith, by linarith, by linarith, by linarith⟩
  · exact Or.inr (Or.inr (Or.inl ⟨by linarith, by linarith, by linarith, by linarith⟩))
  · exact Or.inr (Or.inl ⟨by linarith, by linarith, by linarith, by linarith⟩)
  · exact Or.inr (Or.inr (Or.inr ⟨by linarith, by linarith, by linarith, by linarith⟩))

/-- Method `divide()` on an undivided node that has bounds and whose `points` set never had
`_array` assigned: it adds the four children, throws at `this.points.array()`, and so leaves
the node with four children and all its points. -/
theorem divideWith_leaves_points (g : Heap) (this : Ref) (self : QuadTree) (b : Rect)
    (insertRecursive : Heap → Ref → Point → Step Bool)
    (hs : g[this]? = some self) (hb : self.bounds = some b) (hn : self.nodes.size = 0)
    (ha : self.points._array = .undefined) :
    ∃ (g1 : Heap) (self1 : QuadTree),
      QuadTree.divideWith insertRecursive g this = some (g1, .typeError) ∧
      g1[this]? = some self1 ∧ self1.nodes.size = 4 ∧ self1.points = self.points := by
  have hlt := getElem?_lt hs
  obtain ⟨sb, so, sp, sn⟩ := self
  simp only at hb hn ha
  subst hb
  have hv : sn.values = [] := List.length_eq_zero.mp hn
  simp only [QuadTree.divideWith, hs, QuadTree.constructor, Superset.array, ha]
  have hN : (@Superset.add Ref _ (@Superset.add Ref _ (@Superset.add Ref _
      (@Superset.add Ref _ sn g.length) (g.length + 1)) (g.length + 1 + 1))
      (g.length + 1 + 1 + 1)).size = 4 := by
    generalize g.length = k
    have e1 : ¬ k + 1 = k := by omega
    have e2 : ¬ k + 1 + 1 = k := by omega
    have e3 : ¬ k + 1 + 1 + 1 = k := by omega
    simp [Superset.add, Superset.size, hv, e1, e2, e3]
  simp only [List.length_append, List.length_singleton]
  generalize @Superset.add Ref _ _ _ = N at hN
  refine ⟨_, { bounds := some b, opts := so, points := sp, nodes := N }, rfl, ?_, hN, rfl⟩
  simp only [Heap.write]
  rw [List.getElem?_set_eq_of_lt]
  simp only [List.length_append, List.length_singleton]
  exact Nat.lt_of_lt_of_le hlt (by simp [Nat.add_assoc])

/-- Method `insertRecursive(p)` on an undivided node that has bounds, is at capacity and may
divide, for a point inside the bounds: it calls `divide()`, which throws after it added the
children and before it cleared the points. -/
theorem insertRecursive_leaves_points (g : Heap) (this : Ref) (self : QuadTree) (b : Rect)
    (p : Point) (fuel : ℕ)
    (hs : g[this]? = some self) (hb : self.bounds = some b) (hp : b.contains p = true)
    (hn : self.nodes.size = 0)
    (hfull : ¬ ((self.points.size : ℤ) < self.opts.maxPointsPerNode))
    (hd : self.opts.maxDepth = -1 ∨ self.opts.maxDepth > 0)
    (ha : self.points._array = .undefined) :
    ∃ (g1 : Heap) (self1 : QuadTree),
      QuadTree.insertRecursive (fuel + 1) g this p = some (g1, .typeError) ∧
      QuadTree.divide fuel g this = some (g1, .typeError) ∧
      g1[this]? = some self1 ∧ self1.nodes.size = 4 ∧ self1.points = self.points := by
  obtain ⟨g1, self1, hdiv, hs1, hn1, hp1⟩ :=
    divideWith_leaves_points g this self b (QuadTree.insertRecursive fuel) hs hb hn ha
  have hd0 : ¬ self.opts.maxDepth = 0 := by
    rcases hd with h | h
    · rw [h]; decide
    · exact ne_of_gt h
  refine ⟨g1, self1, ?_, hdiv, hs1, hn1, hp1⟩
  simp only [QuadTree.insertRecursive, QuadTree.insertRecursiveStep, hs, hb, callContains, hp,
    hn, if_true, hfull, hd0, or_self, if_false, hd, hdiv]

/-! ## The claims, continued -/

/-- C12 (`Rect.intersects` decides overlap of closed rectangles). For rectangles `a` and `b`
with non-negative width and height, `a.intersects(b)` is true exactly when some point is
contained in both (all four edges inclusive), and `a.intersects(b) = b.intersects(a)`.
Numbers are exact rationals. -/
theorem rect_intersects_spec (a b : Rect) (haw : 0 ≤ a.width) (hah : 0 ≤ a.height)
    (hbw : 0 ≤ b.width) (hbh : 0 ≤ b.height) :
    (a.intersects b = true ↔ ∃ p : Point, a.contains p = true ∧ b.contains p = true) ∧
    a.intersects b = b.intersects a := by
  constructor
  · rw [rect_intersects_iff_edges]
    constructor
    · rintro ⟨h1, h2, h3, h4⟩
      refine ⟨⟨0, max (a.x - a.width / 2) (b.x - b.width / 2),
        max (a.y - a.height / 2) (b.y - b.height / 2)⟩, ?_, ?_⟩
      · rw [rect_contains_iff]
        refine ⟨le_max_left _ _, max_le (by linarith) h1, le_max_left _ _,
          max_le (by linarith) h3⟩
      · rw [rect_contains_iff]
        refine ⟨le_max_right _ _, max_le h2 (by linarith), le_max_right _ _,
          max_le h4 (by linarith)⟩
    · rintro ⟨p, hpa, hpb⟩
      rw [rect_contains_iff] at hpa hpb
      obtain ⟨a1, a2, a3, a4⟩ := hpa
      obtain ⟨b1, b2, b3, b4⟩ := hpb
      exact ⟨by linarith, by linarith, by linarith, by linarith⟩
  · rw [Bool.eq_iff_iff, rect_intersects_iff_edges, rect_intersects_iff_edges]
    tauto

/-- C12 at `new Rect(0, 0, 10, 10)` and `new Rect(10, 10, 10, 10)`, which touch in the single
corner point (5, 5): they intersect both ways round. -/
theorem rect_intersects_spec_witness :
    ((0 : ℚ) ≤ (⟨0, 0, 10, 10⟩ : Rect).width ∧ (0 : ℚ) ≤ (⟨0, 0, 10, 10⟩ : Rect).height ∧
      (0 : ℚ) ≤ (⟨10, 10, 10, 10⟩ : Rect).width ∧
      (0 : ℚ) ≤ (⟨10, 10, 10, 10⟩ : Rect).height) ∧
    Rect.intersects ⟨0, 0, 10, 10⟩ ⟨10, 10, 10, 10⟩ = true ∧
    Rect.intersects ⟨10, 10, 10, 10⟩ ⟨0, 0, 10, 10⟩ = true ∧
    ∃ p : Point, Rect.contains ⟨0, 0, 10, 10⟩ p = true ∧
      Rect.contains ⟨10, 10, 10, 10⟩ p = true :=
  have h := rect_intersects_spec ⟨0, 0, 10, 10⟩ ⟨10, 10, 10, 10⟩ (by norm_num) (by norm_num)
    (by norm_num) (by norm_num)
  have hi : Rect.intersects ⟨0, 0, 10, 10⟩ ⟨10, 10, 10, 10⟩ = true := by
    norm_num [Rect.intersects, Rect.left, Rect.right, Rect.top, Rect.bottom]
  ⟨⟨by norm_num, by norm_num, by norm_num, by norm_num⟩, hi, h.2 ▸ hi, h.1.mp hi⟩

/-- C13 (`Circle.intersects` is the closest-point test). For a circle `c` with radius `≥ 0`
and a rectangle `r` with non-negative width and height, `c.intersects(r)` equals the test
`dx*dx + dy*dy <= radius*radius` with `dx = max(|r.x - c.x| - r.width/2, 0)` and
`dy = max(|r.y - c.y| - r.height/2, 0)`, and it is true exactly when some point is contained
in both the circle and the rectangle. Numbers are exact rationals. -/
theorem circle_intersects_spec (c : Circle) (r : Rect) (hr : 0 ≤ c.radius)
    (hw : 0 ≤ r.width) (hh : 0 ≤ r.height) :
    c.intersects r = c.closestPointTest r ∧
    (c.intersects r = true ↔
      max (|r.x - c.x| - r.width / 2) 0 * max (|r.x - c.x| - r.width / 2) 0 +
        max (|r.y - c.y| - r.height / 2) 0 * max (|r.y - c.y| - r.height / 2) 0 ≤
      c.radius * c.radius) ∧
    (c.intersects r = true ↔ ∃ p : Point, c.contains p = true ∧ r.contains p = true) := by
  have h1 := circle_intersects_eq_closestPointTest c r hr
  refine ⟨h1, ?_, ?_⟩
  · rw [h1]
    simp only [Circle.closestPointTest, decide_eq_true_eq]
  · rw [h1]
    exact closestPointTest_iff_common_point c r hw hh

/-- C13 at `new Circle(0, 0, 5)` and `new Rect(8, 4, 10, 8)`: the nearest point of the
rectangle is its corner (3, 0), at distance 3, so they intersect. -/
theorem circle_intersects_spec_witness :
    ((0 : ℚ) ≤ (⟨0, 0, 5⟩ : Circle).radius ∧ (0 : ℚ) ≤ (⟨8, 4, 10, 8⟩ : Rect).width ∧
      (0 : ℚ) ≤ (⟨8, 4, 10, 8⟩ : Rect).height) ∧
    Circle.closestPointTest ⟨0, 0, 5⟩ ⟨8, 4, 10, 8⟩ = true ∧
    Circle.intersects ⟨0, 0, 5⟩ ⟨8, 4, 10, 8⟩ = true ∧
    ∃ p : Point, Circle.contains ⟨0, 0, 5⟩ p = true ∧ Rect.contains ⟨8, 4, 10, 8⟩ p = true :=
  have h := circle_intersects_spec ⟨0, 0, 5⟩ ⟨8, 4, 10, 8⟩ (by norm_num) (by norm_num)
    (by norm_num)
  have ht : Circle.closestPointTest ⟨0, 0, 5⟩ ⟨8, 4, 10, 8⟩ = true := by
    norm_num [Circle.closestPointTest, abs_of_nonneg]
  have hi : Circle.intersects ⟨0, 0, 5⟩ ⟨8, 4, 10, 8⟩ = true := h.1.trans ht
  ⟨⟨by norm_num, by norm_num, by norm_num⟩, ht, hi, h.2.2.mp hi⟩

/-- C14 (`array()` reflects the current contents) does not hold of the code. For a `Superset`
constructed with any entries and after any sequence of `add`, `delete`, `clear` and `array`
calls, `_array` has never been assigned and `array()` throws a TypeError instead of returning
the elements. And on any set whose `_array` holds an array as long as the set is large,
`array()` returns that array unchanged, whatever the set contains now. -/
theorem array_throws_after_any_calls {α : Type} [DecidableEq α] (entries : List α)
    (calls : List (SupersetCall α)) :
    ((Superset.constructorOf entries).afterCalls calls)._array = .undefined ∧
    ((Superset.constructorOf entries).afterCalls calls).array = .typeError ∧
    ∀ (s : Superset α) (items : List α), s._array = .array items →
      items.length = s.size → s.array = .normal (s, items) := by
  have h := afterCalls_array calls _ (constructorOf_array entries)
  refine ⟨h, array_of_undefined _ h, fun s items hs hl => ?_⟩
  simp only [Superset.array, hs, hl, ne_eq, not_true_eq_false, if_false]

/-- Failing input of C14: `const s = new Superset(); s.add(1); s.array()` throws although
the set holds 1; and a set holding 2 whose `_array` is `[1]` answers `[1]`. -/
theorem array_throws_after_any_calls_witness :
    ((Superset.constructorOf ([] : List ℕ)).afterCalls [.add 1]).values = [1] ∧
    ((Superset.constructorOf ([] : List ℕ)).afterCalls [.add 1]).array = .typeError ∧
    ({ values := [2], _array := .array [1] } : Superset ℕ).array =
      .normal ({ values := [2], _array := .array [1] }, [1]) :=
  ⟨rfl, (array_throws_after_any_calls ([] : List ℕ) [.add 1]).2.1,
   (array_throws_after_any_calls ([] : List ℕ) []).2.2 _ _ rfl rfl⟩

/-- C11 (children of a subdivided node and dividing-line priority) does not hold of the
code. On every reachable tree `insert` throws a TypeError and the root never gets children.
`divide()` does compute the four rectangles NE, NW, SE, SW, but it passes them to the
constructor, which drops them: an object made by `new QuadTree(rect, opts)` has no `bounds`.
So on any node that has bounds and whose `points` set was made by the code, the four children
`divide()` creates have no bounds and hold no point, and `divide()` throws. -/
theorem divide_children_without_bounds (bounds : Rect) (opts : Option OptsArg) (h : Heap)
    (hr : Reachable bounds opts h) (p : Point) (ps : List Point) (fuel : ℕ) :
    QuadTree.insert (fuel + 1) h root (p :: ps) = some (h, .typeError) ∧
    (∃ n : QuadTree, h[root]? = some n ∧ n.nodes.size = 0) ∧
    (∀ (g : Heap) (rect : Rect) (o : Option OptsArg), ∃ n : QuadTree,
      (QuadTree.constructor g rect o).1[(QuadTree.constructor g rect o).2]? = some n ∧
      n.bounds = none) ∧
    (∀ (g : Heap) (this : Ref) (self : QuadTree) (b : Rect) (fuel1 : ℕ),
      g[this]? = some self → self.bounds = some b → self.points._array = .undefined →
      ∃ g1, QuadTree.divide fuel1 g this = some (g1, .typeError) ∧
        ∀ i, i < 4 → ∃ child : QuadTree, g1[g.length + i]? = some child ∧
          child.bounds = none ∧ child.points.size = 0) := by
  obtain rfl := reachable_eq_fresh hr
  refine ⟨insert_fresh bounds opts p ps fuel, ⟨_, fresh_root bounds opts, rfl⟩,
    fun g rect o => ⟨{ bounds := none, opts := spreadOpts defaultQuadtreeOpts o,
                       points := Superset.constructor, nodes := Superset.constructor },
      by simp [QuadTree.constructor], rfl⟩,
    fun g this self b fuel1 hs hb ha => divideWith_children_bounds g this self b _ hs hb ha⟩

/-- Failing input of C11: `new QuadTree(new Rect(0, 0, 10, 10), {maxPointsPerNode: 1})`, then
`insert(new Point(1, 1))` and `insert(new Point(0, 0))`: the second point is the centre,
which the claim stores under the NE child of a subdivided root. -/
theorem divide_children_without_bounds_witness :
    Reachable ⟨0, 0, 10, 10⟩ (some ⟨none, some 1, none⟩)
      (QuadTree.fresh ⟨0, 0, 10, 10⟩ (some ⟨none, some 1, none⟩)) ∧
    QuadTree.insert 1 (QuadTree.fresh ⟨0, 0, 10, 10⟩ (some ⟨none, some 1, none⟩)) root
        [{ ref := 2, x := 0, y := 0 }] =
      some (QuadTree.fresh ⟨0, 0, 10, 10⟩ (some ⟨none, some 1, none⟩), .typeError) ∧
    ∃ n : QuadTree,
      (QuadTree.fresh ⟨0, 0, 10, 10⟩ (some ⟨none, some 1, none⟩))[root]? = some n ∧
      n.nodes.size = 0 :=
  have h := divide_children_without_bounds ⟨0, 0, 10, 10⟩ (some ⟨none, some 1, none⟩) _
    (Reachable.insert 1 [{ ref := 1, x := 1, y := 1 }] Reachable.construct
      (insert_fresh ⟨0, 0, 10, 10⟩ (some ⟨none, some 1, none⟩) { ref := 1, x := 1, y := 1 }
        [] 0))
    { ref := 2, x := 0, y := 0 } [] 0
  ⟨Reachable.construct, h.1, h.2.1⟩

/-- C15 (stored points lie inside their node) is not delivered by the code. No object the
code creates has `bounds`: on every reachable tree, and for each of the four children
`divide()` creates on any heap, the call `n.bounds.contains(p)` that the claim requires to be
true throws a TypeError for every point `p`. So no point is ever stored under a node:
`insert(p)` throws and never returns `true`, and `getPoints()` stays empty. What the methods
do keep, on any heap, is the property of a single object that its own points lie inside its
own bounds: `insertRecursive`, `divide()` on an undivided node, and `removeRecursive` with
its collapse keep it. -/
theorem bounds_contains_throws (bounds : Rect) (opts : Option OptsArg) (h : Heap)
    (hr : Reachable bounds opts h) (p : Point) (fuel : ℕ) :
    (∀ (r : Ref) (n : QuadTree), h[r]? = some n →
      ∀ q : Point, callContains n.bounds q = .typeError) ∧
    QuadTree.insert (fuel + 1) h root [p] = some (h, .typeError) ∧
    (∀ (fuel1 : ℕ) (points : List Point) (h1 : Heap),
      QuadTree.insert fuel1 h root points ≠ some (h1, .normal true)) ∧
    QuadTree.getPoints (fuel + 1) h root = some [] ∧
    (∀ (g : Heap) (this : Ref) (self : QuadTree) (b : Rect) (fuel1 : ℕ),
      g[this]? = some self → self.bounds = some b → self.points._array = .undefined →
      ∃ g1, QuadTree.divide fuel1 g this = some (g1, .typeError) ∧
        ∀ i, i < 4 → ∃ child : QuadTree, g1[g.length + i]? = some child ∧
          ∀ q : Point, callContains child.bounds q = .typeError) ∧
    (∀ (fuel1 : ℕ) (g : Heap) (this : Ref) (q : Point) (g1 : Heap) (c : Completion Bool),
      QuadTree.insertRecursive fuel1 g this q = some (g1, c) →
      EveryNode PointsInside g → EveryNode PointsInside g1) ∧
    (∀ (fuel1 : ℕ) (g : Heap) (this : Ref) (self : QuadTree) (g1 : Heap)
        (c : Completion Unit),
      g[this]? = some self → self.nodes.size = 0 →
      QuadTree.divide fuel1 g this = some (g1, c) →
      EveryNode PointsInside g → EveryNode PointsInside g1) ∧
    (∀ (fuel1 : ℕ) (g : Heap) (this : Ref) (q : Point) (g1 : Heap) (c : Completion Bool),
      QuadTree.removeRecursive fuel1 g this q = some (g1, c) →
      EveryNode PointsInside g → EveryNode PointsInside g1) := by
  obtain rfl := reachable_eq_fresh hr
  refine ⟨?_, insert_fresh bounds opts p [] fuel,
    fun fuel1 points h1 hc => (insert_fresh_heap bounds opts fuel1 points h1 _ hc).2.1 rfl,
    getPoints_fresh bounds opts fuel, ?_,
    fun fuel1 => everyNode_insertRecursive pointsInside_stableUnderInsert fuel1,
    fun fuel1 g this self g1 c hs hn hc hg =>
      everyNode_divideWith pointsInside_stableUnderInsert
        (everyNode_insertRecursive pointsInside_stableUnderInsert fuel1) g this self g1 c hs
        hn hc hg,
    fun fuel1 => everyNode_removeRecursive pointsInside_stableUnderRemove fuel1⟩
  · intro r n hn q
    obtain ⟨-, rfl⟩ := fresh_getElem bounds opts r n hn
    rfl
  · intro g this self b fuel1 hs hb ha
    obtain ⟨g1, hdiv, hch⟩ :=
      divideWith_children_bounds g this self b (QuadTree.insertRecursive fuel1) hs hb ha
    refine ⟨g1, hdiv, fun i hi => ?_⟩
    obtain ⟨child, hc, hcb, -⟩ := hch i hi
    exact ⟨child, hc, fun q => by rw [hcb]; rfl⟩

/-- Failing input of C15: `new QuadTree(new Rect(0, 0, 10, 10))`, then
`insert(new Point(1, 1))`, a point inside the rectangle, and `getPoints()`. -/
theorem bounds_contains_throws_witness :
    Reachable ⟨0, 0, 10, 10⟩ none (QuadTree.fresh ⟨0, 0, 10, 10⟩ none) ∧
    Rect.contains ⟨0, 0, 10, 10⟩ { ref := 1, x := 1, y := 1 } = true ∧
    (∀ (r : Ref) (n : QuadTree), (QuadTree.fresh ⟨0, 0, 10, 10⟩ none)[r]? = some n →
      ∀ q : Point, callContains n.bounds q = .typeError) ∧
    QuadTree.insert 1 (QuadTree.fresh ⟨0, 0, 10, 10⟩ none) root
        [{ ref := 1, x := 1, y := 1 }] =
      some (QuadTree.fresh ⟨0, 0, 10, 10⟩ none, .typeError) ∧
    QuadTree.getPoints 1 (QuadTree.fresh ⟨0, 0, 10, 10⟩ none) root = some [] :=
  have h := bounds_contains_throws ⟨0, 0, 10, 10⟩ none _ Reachable.construct
    { ref := 1, x := 1, y := 1 } 0
  ⟨Reachable.construct,
   by norm_num [Rect.contains, Rect.left, Rect.right, Rect.top, Rect.bottom],
   h.1, h.2.1, h.2.2.2.1⟩

/-- C16 (points and children exclude each other) does not hold of the code: `insert` and
`divide()` do not preserve it. `divide()` adds the four children first and clears `points`
last, and in between it calls `this.points.array()`, which throws on every set the code
creates. So on a heap in which every node with children holds no points, take an undivided
node that has bounds, holds at least one point, is at capacity and may divide: `insert` of a
point inside its bounds throws a TypeError, as does `divide()`, and leaves that node with
four children and all its points. On every tree reachable from the constructor alone
`insert` throws earlier, at `this.bounds.contains(point)`, and the root keeps no children
and no points. The other parts hold on any heap: `insertRecursive` and `removeRecursive`
keep the number of children of every object at 0 or 4, and `removeRecursive` with its
collapse keeps every object with children free of points. -/
theorem divide_breaks_exclusivity (g : Heap) (this : Ref) (self : QuadTree) (b : Rect)
    (p : Point) (fuel : ℕ)
    (hs : g[this]? = some self) (hb : self.bounds = some b) (hp : b.contains p = true)
    (hn : self.nodes.size = 0) (hpos : 0 < self.points.size)
    (hfull : ¬ ((self.points.size : ℤ) < self.opts.maxPointsPerNode))
    (hd : self.opts.maxDepth = -1 ∨ self.opts.maxDepth > 0)
    (ha : self.points._array = .undefined) :
    Exclusive self ∧
    (∃ (g1 : Heap) (self1 : QuadTree),
      QuadTree.insert (fuel + 1) g this [p] = some (g1, .typeError) ∧
      QuadTree.divide fuel g this = some (g1, .typeError) ∧
      g1[this]? = some self1 ∧ self1.nodes.size = 4 ∧ self1.points = self.points ∧
      ¬ Exclusive self1 ∧ ¬ EveryNode Exclusive g1) ∧
    (∀ (bounds : Rect) (opts : Option OptsArg) (h : Heap), Reachable bounds opts h →
      ∀ (q : Point) (qs : List Point) (fuel1 : ℕ),
        QuadTree.insert (fuel1 + 1) h root (q :: qs) = some (h, .typeError) ∧
        ∃ n : QuadTree, h[root]? = some n ∧ n.nodes.size = 0 ∧ n.points.size = 0) ∧
    (∀ (fuel1 : ℕ) (g0 : Heap) (r : Ref) (q : Point) (g1 : Heap) (c : Completion Bool),
      QuadTree.insertRecursive fuel1 g0 r q = some (g1, c) →
      EveryNode ChildCount g0 → EveryNode ChildCount g1) ∧
    (∀ (fuel1 : ℕ) (g0 : Heap) (r : Ref) (q : Point) (g1 : Heap) (c : Completion Bool),
      QuadTree.removeRecursive fuel1 g0 r q = some (g1, c) →
      EveryNode ChildCount g0 → EveryNode ChildCount g1) ∧
    (∀ (fuel1 : ℕ) (g0 : Heap) (r : Ref) (q : Point) (g1 : Heap) (c : Completion Bool),
      QuadTree.removeRecursive fuel1 g0 r q = some (g1, c) →
      EveryNode Exclusive g0 → EveryNode Exclusive g1) := by
  obtain ⟨g1, self1, hins, hdiv, hs1, hn1, hp1⟩ :=
    insertRecursive_leaves_points g this self b p fuel hs hb hp hn hfull hd ha
  have hex : ¬ Exclusive self1 := by
    intro he
    have h0 := he (by rw [hn1]; decide)
    rw [hp1] at h0
    rw [h0] at hpos
    exact Nat.lt_irrefl 0 hpos
  refine ⟨fun h0 => absurd h0 (by rw [hn]; exact Nat.lt_irrefl 0),
    ⟨g1, self1, ?_, hdiv, hs1, hn1, hp1, hex, fun hall => hex (hall this self1 hs1)⟩,
    fun bounds opts h hr q qs fuel1 => ?_,
    fun fuel1 => everyNode_insertRecursive childCount_stableUnderInsert fuel1,
    fun fuel1 => everyNode_removeRecursive childCount_stableUnderRemove fuel1,
    fun fuel1 => everyNode_removeRecursive exclusive_stableUnderRemove fuel1⟩
  · simp only [QuadTree.insert, QuadTree.insertLoop, hins]
  · obtain rfl := reachable_eq_fresh hr
    exact ⟨insert_fresh bounds opts q qs fuel1, _, fresh_root bounds opts, rfl, rfl⟩

/-- Failing input of C16: `t = new QuadTree(new Rect(0, 0, 10, 10), {maxPointsPerNode: 1})`
with `t.bounds = new Rect(0, 0, 10, 10)` assigned by the caller, then
`t.insert(new Point(1, 1))`, which stores the point, and `t.insert(new Point(2, 2))`, which
throws and leaves `t.nodes.size = 4` and `t.points.size = 1`. -/
theorem divide_breaks_exclusivity_witness :
    QuadTree.insert 1
        [{ bounds := some ⟨0, 0, 10, 10⟩,
           opts := { maxDepth := -1, maxPointsPerNode := 1, removeEmptyNodes := false },
           points := Superset.constructor, nodes := Superset.constructor }]
        root [{ ref := 1, x := 1, y := 1 }] =
      some ([{ bounds := some ⟨0, 0, 10, 10⟩,
               opts := { maxDepth := -1, maxPointsPerNode := 1, removeEmptyNodes := false },
               points := { values := [{ ref := 1, x := 1, y := 1 }], _array := .undefined },
               nodes := Superset.constructor }], .normal true) ∧
    Rect.contains ⟨0, 0, 10, 10⟩ { ref := 2, x := 2, y := 2 } = true ∧
    EveryNode Exclusive
      [{ bounds := some ⟨0, 0, 10, 10⟩,
         opts := { maxDepth := -1, maxPointsPerNode := 1, removeEmptyNodes := false },
         points := { values := [{ ref := 1, x := 1, y := 1 }], _array := .undefined },
         nodes := Superset.constructor }] ∧
    ∃ (g1 : Heap) (self1 : QuadTree),
      QuadTree.insert 1
          [{ bounds := some ⟨0, 0, 10, 10⟩,
             opts := { maxDepth := -1, maxPointsPerNode := 1, removeEmptyNodes := false },
             points := { values := [{ ref := 1, x := 1, y := 1 }], _array := .undefined },
             nodes := Superset.constructor }]
          root [{ ref := 2, x := 2, y := 2 }] = some (g1, .typeError) ∧
      g1[root]? = some self1 ∧ self1.nodes.size = 4 ∧ self1.points.size = 1 ∧
      ¬ EveryNode Exclusive g1 := by
  refine ⟨?_, ?_, ?_, ?_⟩
  · simp [QuadTree.insert, QuadTree.insertLoop, QuadTree.insertRecursive,
      QuadTree.insertRecursiveStep, root, callContains, Superset.constructor, Superset.size,
      Superset.add, Heap.write]
    norm_num [Rect.contains, Rect.left, Rect.right, Rect.top, Rect.bottom]
  · norm_num [Rect.contains, Rect.left, Rect.right, Rect.top, Rect.bottom]
  · intro r n hrn hpos
    cases r with
    | zero =>
      simp only [List.getElem?_cons_zero, Option.some.injEq] at hrn
      subst hrn
      simp [Superset.constructor, Superset.size] at hpos
    | succ k => simp at hrn
  · obtain ⟨-, ⟨g1, self1, hins, -, hs1, hn1, hp1, -, hex⟩, -⟩ :=
      divide_breaks_exclusivity
        [{ bounds := some ⟨0, 0, 10, 10⟩,
           opts := { maxDepth := -1, maxPointsPerNode := 1, removeEmptyNodes := false },
           points := { values := [{ ref := 1, x := 1, y := 1 }], _array := .undefined },
           nodes := Superset.constructor }]
        root
        { bounds := some ⟨0, 0, 10, 10⟩,
          opts := { maxDepth := -1, maxPointsPerNode := 1, removeEmptyNodes := false },
          points := { values := [{ ref := 1, x := 1, y := 1 }], _array := .undefined },
          nodes := Superset.constructor }
        ⟨0, 0, 10, 10⟩ { ref := 2, x := 2, y := 2 } 0
        rfl rfl
        (by norm_num [Rect.contains, Rect.left, Rect.right, Rect.top, Rect.bottom])
        rfl (by decide) (by decide) (Or.inl rfl) rfl
    exact ⟨g1, self1, hins, hs1, hn1, by rw [hp1]; rfl, hex⟩

/-- C17 (`getTree()` describes the current contents) does not hold of the code. On every
reachable tree, also one on which `getTree()` was called before and points were then removed
and inserted, `getPoints()` returns the empty list but `getTree()` returns no description at
all: it throws a TypeError at any fuel. On any heap, `getTree()` throws on every node whose
`points` and `nodes` sets never had `_array` assigned, which is every set the code creates. -/
theorem getTree_never_describes (bounds : Rect) (opts : Option OptsArg) (h : Heap)
    (hr : Reachable bounds opts h) (fuel : ℕ) :
    QuadTree.getPoints (fuel + 1) h root = some [] ∧
    QuadTree.getTree (fuel + 1) h root = some (h, .typeError) ∧
    (∀ (fuel1 : ℕ) (h1 : Heap) (t : Tree),
      QuadTree.getTree fuel1 h root ≠ some (h1, .normal t)) ∧
    (∀ (g : Heap) (this : Ref) (self : QuadTree) (fuel1 : ℕ),
      g[this]? = some self → self.points._array = .undefined →
      self.nodes._array = .undefined →
      QuadTree.getTree (fuel1 + 1) g this = some (g, .typeError)) := by
  obtain rfl := reachable_eq_fresh hr
  refine ⟨getPoints_fresh bounds opts fuel, getTree_fresh bounds opts fuel,
    fun fuel1 h1 t hc => ?_,
    fun g this self fuel1 hs hp hn => getTree_of_undefined g this self fuel1 hs hp hn⟩
  cases fuel1 with
  | zero => simp [QuadTree.getTree] at hc
  | succ n =>
    rw [getTree_fresh] at hc
    simp at hc

/-- Failing input of C17: `new QuadTree(new Rect(0, 0, 10, 10))`, then `getTree()`,
`remove(new Point(1, 1))`, `insert(new Point(2, 2))`, `getPoints()` and `getTree()` again. -/
theorem getTree_never_describes_witness :
    Reachable ⟨0, 0, 10, 10⟩ none (QuadTree.fresh ⟨0, 0, 10, 10⟩ none) ∧
    QuadTree.getPoints 1 (QuadTree.fresh ⟨0, 0, 10, 10⟩ none) root = some [] ∧
    QuadTree.getTree 1 (QuadTree.fresh ⟨0, 0, 10, 10⟩ none) root =
      some (QuadTree.fresh ⟨0, 0, 10, 10⟩ none, .typeError) :=
  have h := getTree_never_describes ⟨0, 0, 10, 10⟩ none _
    (Reachable.insert 1 [{ ref := 2, x := 2, y := 2 }]
      (Reachable.remove 1 [{ ref := 1, x := 1, y := 1 }]
        (Reachable.getTree 1 Reachable.construct (getTree_fresh ⟨0, 0, 10, 10⟩ none 0))
        (remove_fresh ⟨0, 0, 10, 10⟩ none { ref := 1, x := 1, y := 1 } [] 0))
      (insert_fresh ⟨0, 0, 10, 10⟩ none { ref := 2, x := 2, y := 2 } [] 0)) 0
  ⟨Reachable.construct, h.1, h.2.1⟩

/-- C18 (unbounded recursion on duplicate coordinates) does not hold of the code. On every
reachable tree, whatever `maxDepth` and `maxPointsPerNode` are, the root holds no point, so
it never holds `k ≥ 1` points, and `insert(p)` terminates in a single activation of
`insertRecursive`: it throws a TypeError. On any heap, one activation of `insertRecursive`
completes on every undivided node whose `points` set was made by the code, because `divide()`
throws before it re-inserts anything. -/
theorem duplicate_insert_terminates (bounds : Rect) (opts : Option OptsArg) (h : Heap)
    (hr : Reachable bounds opts h) (p : Point) (fuel : ℕ) :
    (∃ n : QuadTree, h[root]? = some n ∧ n.points.size = 0 ∧ n.nodes.size = 0) ∧
    QuadTree.insert 1 h root [p] = some (h, .typeError) ∧
    QuadTree.insert (fuel + 1) h root [p] ≠ none ∧
    (∀ (g : Heap) (this : Ref) (self : QuadTree) (q : Point) (fuel1 : ℕ),
      g[this]? = some self → self.nodes.size = 0 → self.points._array = .undefined →
      ∃ res, QuadTree.insertRecursive (fuel1 + 1) g this q = some res) := by
  obtain rfl := reachable_eq_fresh hr
  refine ⟨⟨_, fresh_root bounds opts, rfl, rfl⟩, insert_fresh bounds opts p [] 0, ?_,
    fun g this self q fuel1 hs hn ha =>
      insertRecursive_one_activation g this self q fuel1 hs hn ha⟩
  rw [insert_fresh]
  simp

/-- Failing input of C18: `new QuadTree(new Rect(0, 0, 10, 10), {maxPointsPerNode: 1})`
(`maxDepth` is -1), then `insert(new Point(1, 1))` and the insert of a second `Point` object
with the same coordinates. -/
theorem duplicate_insert_terminates_witness :
    Reachable ⟨0, 0, 10, 10⟩ (some ⟨none, some 1, none⟩)
      (QuadTree.fresh ⟨0, 0, 10, 10⟩ (some ⟨none, some 1, none⟩)) ∧
    (spreadOpts defaultQuadtreeOpts (some ⟨none, some 1, none⟩)).maxDepth = -1 ∧
    QuadTree.insert 1 (QuadTree.fresh ⟨0, 0, 10, 10⟩ (some ⟨none, some 1, none⟩)) root
        [{ ref := 2, x := 1, y := 1 }] =
      some (QuadTree.fresh ⟨0, 0, 10, 10⟩ (some ⟨none, some 1, none⟩), .typeError) :=
  have h := duplicate_insert_terminates ⟨0, 0, 10, 10⟩ (some ⟨none, some 1, none⟩) _
    (Reachable.insert 1 [{ ref := 1, x := 1, y := 1 }] Reachable.construct
      (insert_fresh ⟨0, 0, 10, 10⟩ (some ⟨none, some 1, none⟩) { ref := 1, x := 1, y := 1 }
        [] 0))
    { ref := 2, x := 1, y := 1 } 0
  ⟨Reachable.construct, rfl, h.2.1⟩

/-- C19 (an in-bounds insert never fails) does not hold of the code. On every reachable tree
`insertRecursive(p)` terminates without returning `true`: it throws a TypeError, so `insert`
never returns `true`, whether or not a point lies inside the root bounds. The geometric part
of the claim holds: the four rectangles `divide()` computes cover the rectangle they
divide. -/
theorem insertRecursive_throws_in_bounds (bounds : Rect) (opts : Option OptsArg) (h : Heap)
    (hr : Reachable bounds opts h) (p : Point) (fuel : ℕ) :
    QuadTree.insertRecursive (fuel + 1) h root p = some (h, .typeError) ∧
    (∀ (fuel1 : ℕ) (h1 : Heap),
      QuadTree.insertRecursive fuel1 h root p ≠ some (h1, .normal true)) ∧
    (∀ (fuel1 : ℕ) (points : List Point) (h1 : Heap),
      QuadTree.insert fuel1 h root points ≠ some (h1, .normal true)) ∧
    (∀ (b : Rect) (q : Point), b.contains q = true →
      Rect.contains ⟨b.x + b.width / 2 / 2, b.y - b.height / 2 / 2, b.width / 2,
        b.height / 2⟩ q = true ∨
      Rect.contains ⟨b.x - b.width / 2 / 2, b.y - b.height / 2 / 2, b.width / 2,
        b.height / 2⟩ q = true ∨
      Rect.contains ⟨b.x + b.width / 2 / 2, b.y + b.height / 2 / 2, b.width / 2,
        b.height / 2⟩ q = true ∨
      Rect.contains ⟨b.x - b.width / 2 / 2, b.y + b.height / 2 / 2, b.width / 2,
        b.height / 2⟩ q = true) := by
  obtain rfl := reachable_eq_fresh hr
  refine ⟨insertRecursive_fresh bounds opts p fuel, fun fuel1 h1 hc => ?_,
    fun fuel1 points h1 hc => (insert_fresh_heap bounds opts fuel1 points h1 _ hc).2.1 rfl,
    quadrants_cover⟩
  cases fuel1 with
  | zero => simp [QuadTree.insertRecursive] at hc
  | succ n =>
    rw [insertRecursive_fresh] at hc
    simp at hc

/-- Failing input of C19: `new QuadTree(new Rect(0, 0, 10, 10))`, then
`insert(new Point(1, 1))`, a point inside the bounds. -/
theorem insertRecursive_throws_in_bounds_witness :
    Reachable ⟨0, 0, 10, 10⟩ none (QuadTree.fresh ⟨0, 0, 10, 10⟩ none) ∧
    Rect.contains ⟨0, 0, 10, 10⟩ { ref := 1, x := 1, y := 1 } = true ∧
    QuadTree.insertRecursive 1 (QuadTree.fresh ⟨0, 0, 10, 10⟩ none) root
        { ref := 1, x := 1, y := 1 } =
      some (QuadTree.fresh ⟨0, 0, 10, 10⟩ none, .typeError) :=
  ⟨Reachable.construct,
   by norm_num [Rect.contains, Rect.left, Rect.right, Rect.top, Rect.bottom],
   (insertRecursive_throws_in_bounds ⟨0, 0, 10, 10⟩ none _ Reachable.construct
      { ref := 1, x := 1, y := 1 } 0).1⟩

/-- C20 (a single removal deletes exactly one point) is not delivered by the code: on every
reachable tree no call of `remove` ever returns `true`, whatever the points and the fuel.
`remove(p)` throws a TypeError, and `getPoints()` is the empty list before and after, so no
point is ever deleted. -/
theorem remove_never_returns_true (bounds : Rect) (opts : Option OptsArg) (h : Heap)
    (hr : Reachable bounds opts h) (p : Point) (fuel : ℕ) :
    (∀ (fuel1 : ℕ) (points : List Point) (h1 : Heap),
      QuadTree.remove fuel1 h root points ≠ some (h1, .normal true)) ∧
    QuadTree.getPoints (fuel + 1) h root = some [] ∧
    QuadTree.remove (fuel + 1) h root [p] = some (h, .typeError) ∧
    QuadTree.removeRecursive (fuel + 1) h root p = some (h, .typeError) := by
  obtain rfl := reachable_eq_fresh hr
  exact ⟨fun fuel1 points h1 hc => (remove_fresh_heap bounds opts fuel1 points h1 _ hc).2.1 rfl,
    getPoints_fresh bounds opts fuel, remove_fresh bounds opts p [] fuel, rfl⟩

/-- Failing input of C20: `new QuadTree(new Rect(0, 0, 10, 10))`, then
`insert(new Point(1, 1))` and `remove(new Point(1, 1))`. -/
theorem remove_never_returns_true_witness :
    Reachable ⟨0, 0, 10, 10⟩ none (QuadTree.fresh ⟨0, 0, 10, 10⟩ none) ∧
    QuadTree.getPoints 1 (QuadTree.fresh ⟨0, 0, 10, 10⟩ none) root = some [] ∧
    QuadTree.remove 1 (QuadTree.fresh ⟨0, 0, 10, 10⟩ none) root
        [{ ref := 1, x := 1, y := 1 }] =
      some (QuadTree.fresh ⟨0, 0, 10, 10⟩ none, .typeError) :=
  have h := remove_never_returns_true ⟨0, 0, 10, 10⟩ none _
    (Reachable.insert 1 [{ ref := 1, x := 1, y := 1 }] Reachable.construct
      (insert_fresh ⟨0, 0, 10, 10⟩ none { ref := 1, x := 1, y := 1 } [] 0))
    { ref := 1, x := 1, y := 1 } 0
  ⟨Reachable.construct, h.2.1, h.2.2.1⟩

end SpeedyTree
